import Mathlib

/-!
Verification of the Rust sudoku solver (src/lang/rust/src/main.rs).

Shallow embedding conventions:
  * A 9x9 array `[[i8; 9]; 9]` is modelled as a total function `Nat → Nat → Int`;
    only indices `< 9` are ever read or written by the embedded code, matching the
    bounds-checked Rust indexing.
  * `usize` loop indices are `Nat`; the `isize` cursor arithmetic of `sud_step`
    is `Int`.  The synthetic start `-1_isize as usize` converted back through
    `as isize` is the integer `-1`, which we pass directly.
  * The `sud_step` loop is modelled with explicit fuel (the Rust loop would not
    terminate for `inc = 0`); fuel 100 strictly exceeds the 82 steps any
    `inc = ±1` traversal can take, which is proved below.
  * The backtracking `while` loop of `sud_solve` is modelled with fuel
    `sudFuel = 12 ^ 90`; termination within that fuel is proved (claim C7).
  * `panic!` / out-of-bounds indexing in `sud_read` is modelled as `Except.error`.
  * File contents are modelled as the list of lines, each line a `List Char`
    (ASCII input assumed: Rust's byte length of an ASCII line equals its
    character count).
-/

/-- A 9x9 sudoku grid of small integers (`[[i8; 9]; 9]` in the source). -/
abbrev Grid := Nat → Nat → Int

/-- A 9x9 mask of booleans (`[[bool; 9]; 9]` in the source). -/
abbrev Mask := Nat → Nat → Bool

/-- Functional update of one cell, modelling `sud[r][c] = v`. -/
def updateG (g : Grid) (r c : Nat) (v : Int) : Grid :=
  fun r' c' => if r' = r ∧ c' = c then v else g r' c'

/-- `sud_get_fixed`: booleans indicating the fixed (nonzero) values of a sudoku. -/
def sud_get_fixed (sud : Grid) : Mask :=
  fun r c => decide (sud r c > 0)

/-- `sud_is_solved`: true if a sudoku has no 0s. -/
def sud_is_solved (sud : Grid) : Bool :=
  (List.range 9).all fun r => (List.range 9).all fun c => sud r c != 0

/-- `sud_cell_is_valid`: check a particular cell against its row, column and box. -/
def sud_cell_is_valid (sud : Grid) (row col : Nat) : Bool :=
  let val := sud row col
  ((List.range 9).all fun c => c == col || sud row c != val) &&
  ((List.range 9).all fun r => r == row || sud r col != val) &&
  (let row_start := 3 * (row / 3)
   let col_start := 3 * (col / 3)
   (List.range 3).all fun i => (List.range 3).all fun j =>
     (row_start + i == row && col_start + j == col) || sud (row_start + i) (col_start + j) != val)

/-- `sud_is_valid`: check the entire grid (every positive cell must be valid). -/
def sud_is_valid (sud : Grid) : Bool :=
  (List.range 9).all fun r => (List.range 9).all fun c =>
    !(decide (sud r c > 0)) || sud_cell_is_valid sud r c

/-- The column-advance-and-wrap computation at the top of the `loop` in
`sud_step`: `icol += inc` followed by the two wrap adjustments. -/
def wrapCell (irow icol inc : Int) : Int × Int :=
  let icol1 := icol + inc
  if icol1 < 0 then (irow - 1, (8 : Int))
  else if icol1 > 8 then (irow + 1, (0 : Int))
  else (irow, icol1)

/-- Body of the `loop` in `sud_step`, with explicit fuel.  `none` models
nontermination (never hit for `inc = ±1`, proved below). -/
def sud_step_go (fixed : Mask) (irow icol inc : Int) : Nat → Option (Int × Int)
  | 0 => none
  | fuel + 1 =>
    let rc := wrapCell irow icol inc
    if rc.1 < 0 ∨ rc.1 > 8 then some (9, 9)
    else if fixed rc.1.toNat rc.2.toNat then sud_step_go fixed rc.1 rc.2 inc fuel
    else some (rc.1, rc.2)

/-- `sud_step`: step forward or backward to the next non-fixed location,
returning `(9, 9)` when the traversal leaves the grid. -/
def sud_step (fixed : Mask) (row col inc : Int) : Int × Int :=
  (sud_step_go fixed row col inc 100).getD (9, 9)

/-- First non-fixed row-major position `≥ q` (positions run 0..80), if any.
Reference form of the forward traversal, used to characterise `sud_step`. -/
def firstFreeFrom (m : Mask) (q : Nat) : Option Nat :=
  if _h : q ≤ 80 then
    if m (q / 9) (q % 9) then firstFreeFrom m (q + 1) else some q
  else none
termination_by 81 - q
decreasing_by omega

/-- Last non-fixed row-major position `≤ q` (for `q < 0`: none).
Reference form of the backward traversal, used to characterise `sud_step`. -/
def lastFreeFrom (m : Mask) (q : Int) : Option Nat :=
  if _h : 0 ≤ q then
    if m (q.toNat / 9) (q.toNat % 9) then lastFreeFrom m (q - 1) else some q.toNat
  else none
termination_by (q + 1).toNat
decreasing_by omega

/-- State of the backtracking loop in `sud_solve`: the working copy `sud_cp`,
the cursor `row`/`col` (as `isize`-like integers) and the `found` flag. -/
structure SolveSt where
  sud : Grid
  row : Int
  col : Int
  found : Bool

/-- One iteration of the `while row != 9` loop body of `sud_solve`. -/
def solveStep (fixed : Mask) (s : SolveSt) : SolveSt :=
  let r := s.row.toNat
  let c := s.col.toNat
  let val := s.sud r c + 1
  if val > 9 then
    let sud' := updateG s.sud r c 0
    let rc := sud_step fixed s.row s.col (-1)
    { sud := sud', row := rc.1, col := rc.2, found := s.found }
  else
    let sud' := updateG s.sud r c val
    if sud_cell_is_valid sud' r c then
      let rc := sud_step fixed s.row s.col 1
      { sud := sud', row := rc.1, col := rc.2, found := s.found || (rc.1 == 9) }
    else
      { sud := sud', row := s.row, col := s.col, found := s.found }

/-- The `while row != 9` loop of `sud_solve`, with fuel. -/
def solveLoop (fixed : Mask) : Nat → SolveSt → SolveSt
  | 0, s => s
  | fuel + 1, s => if s.row = 9 then s else solveLoop fixed fuel (solveStep fixed s)

/-- Fuel for the backtracking loop; proved sufficient for every grid with
values in [0, 9] (claim C7). -/
def sudFuel : Nat := 12 ^ 90

/-- The state of `sud_solve` just before its `while` loop: clone the grid,
compute the fixed mask, step to the first non-fixed cell from the synthetic
position `(0, -1)`, and force `row = 9` for invalid grids. -/
def solveInit (sud : Grid) : SolveSt :=
  let fixed := sud_get_fixed sud
  let rc0 := sud_step fixed 0 (-1) 1
  let row0 := if sud_is_valid sud then rc0.1 else 9
  { sud := sud, row := row0, col := rc0.2, found := row0 == 9 }

/-- Observable outcome of `sud_solve`:
  * `success g`: prints `g`, no error, keeps running (exit 0 at end of batch);
  * `invalidSolution es g`: prints the invalid-solution diagnostic with reason
    list `es`, prints `g`, exits 1;
  * `noSolution g`: prints the could-not-find-a-solution diagnostic, prints `g`
    (the caller's original grid), exits 1. -/
inductive SolveOutcome where
  | success (printed : Grid)
  | invalidSolution (reasons : List String) (printed : Grid)
  | noSolution (printed : Grid)

/-- Reason string pushed when the final grid fails `sud_is_valid`. -/
def errNotValid : String := "not valid"

/-- Reason string pushed when the final grid fails `sud_is_solved`. -/
def errNotSolved : String := "not solved"

/-- `sud_solve`: run the backtracking search and report the outcome. -/
def sud_solve (sud : Grid) : SolveOutcome :=
  let fixed := sud_get_fixed sud
  let s := solveLoop fixed sudFuel (solveInit sud)
  if s.found then
    let errors := (if sud_is_valid s.sud then [] else [errNotValid]) ++
                  (if sud_is_solved s.sud then [] else [errNotSolved])
    if errors.isEmpty then SolveOutcome.success s.sud
    else SolveOutcome.invalidSolution errors s.sud
  else
    SolveOutcome.noSolution sud

/-- Rust's `str::trim` on a line of characters (ASCII whitespace). -/
def rustTrim (l : List Char) : List Char :=
  ((l.dropWhile Char.isWhitespace).reverse.dropWhile Char.isWhitespace).reverse

/-- `line.trim().replace(" ", "")`: trim, then delete every space. -/
def normLine (l : List Char) : List Char :=
  (rustTrim l).filter fun c => c ≠ ' '

/-- A normalized line that is skipped: empty, or a comment starting with `#`. -/
def lineSkipped (t : List Char) : Bool :=
  t.isEmpty || t.head? == some '#'

/-- `c as i8` for a character (two's-complement truncation of the code point). -/
def i8OfChar (c : Char) : Int :=
  let b := c.toNat % 256
  if b < 128 then (b : Int) else (b : Int) - 256

/-- `c as i8 - '0' as i8`: the value stored for character `c`. -/
def charVal (c : Char) : Int := i8OfChar c - 48

/-- Write one puzzle line (already `.`→`0`-mapped) into row `row` of the grid,
modelling `sud[sud_row][i] = c as i8 - '0' as i8` for each character. -/
def fillRow (sud : Grid) (row : Nat) (t : List Char) : Grid :=
  fun r c => if r = row ∧ c < t.length then charVal (t.getD c '0') else sud r c

/-- Failure modes of `sud_read`, both `panic!`s in the source:
  * `badLine num path content`: a surviving line does not have 9 characters
    after normalization (carries the 1-based physical line number, the path and
    the original untrimmed line);
  * `rowOverflow num`: a tenth surviving well-formed line makes `sud[sud_row]`
    index out of bounds (`sud_row = 9`). -/
inductive ReadError where
  | badLine (lineNum : Nat) (path : String) (content : List Char)
  | rowOverflow (lineNum : Nat)

/-- The line-processing loop of `sud_read`. -/
def sud_read_go (path : String) (sud : Grid) (lineNum sudRow : Nat) :
    List (List Char) → Except ReadError Grid
  | [] => Except.ok sud
  | l :: rest =>
    let num := lineNum + 1
    let t := normLine l
    if lineSkipped t then sud_read_go path sud num sudRow rest
    else if t.length ≠ 9 then Except.error (ReadError.badLine num path l)
    else if sudRow ≥ 9 then Except.error (ReadError.rowOverflow num)
    else
      let t2 := t.map fun c => if c = '.' then '0' else c
      sud_read_go path (fillRow sud sudRow t2) num (sudRow + 1) rest

/-- `sud_read`: read a sudoku from a file, given the file's lines. -/
def sud_read (path : String) (lines : List (List Char)) : Except ReadError Grid :=
  sud_read_go path (fun _ _ => 0) 0 0 lines

/-- Grid extracted from a successful read (all-zero default for errors). -/
def okGrid (e : Except ReadError Grid) : Grid :=
  match e with
  | Except.ok g => g
  | Except.error _ => fun _ _ => 0

/-- Whether a read succeeded. -/
def readOk (e : Except ReadError Grid) : Bool :=
  match e with
  | Except.ok _ => true
  | Except.error _ => false

/-- Two distinct cells constrain each other iff they share a row, a column or
a 3x3 box (the spec's notion of the units of a cell). -/
def sameUnit (r c r' c' : Nat) : Prop :=
  r' = r ∨ c' = c ∨ (r' / 3 = r / 3 ∧ c' / 3 = c / 3)

/-- Build a grid from a list of rows (missing entries default to 0). -/
def mkGrid (l : List (List Int)) : Grid :=
  fun r c => (l.getD r []).getD c 0

/-- Cell returned by a forward traversal starting at row-major position `p`
(in `[-1, 80]`): the first non-fixed position after `p`, or the sentinel. -/
def stepCellF (m : Mask) (p : Int) : Int × Int :=
  match firstFreeFrom m (p + 1).toNat with
  | some t => (((t / 9 : Nat) : Int), ((t % 9 : Nat) : Int))
  | none => (9, 9)

/-- Cell returned by a backward traversal starting at row-major position `p`
(in `[0, 80]`): the last non-fixed position before `p`, or the sentinel. -/
def stepCellB (m : Mask) (p : Int) : Int × Int :=
  match lastFreeFrom m (p - 1) with
  | some t => (((t / 9 : Nat) : Int), ((t % 9 : Nat) : Int))
  | none => (9, 9)

/-- Sum of the first `k` powers of 12 (termination measure support). -/
def sudRep (k : Nat) : Int := ∑ i in Finset.range k, 12 ^ i

/-- Base-12 weight of a grid: cells in row-major order as digits, earlier
cells more significant.  Only changes when a cell is written. -/
def sudM (g : Grid) : Int :=
  ∑ q in Finset.range 81, g (q / 9) (q % 9) * 12 ^ (80 - q)

/-- Cursor potential: larger the earlier the cursor is, zero at the terminal
cursor. -/
def sudPot (s : SolveSt) : Int :=
  if s.row = 9 then 0 else 10 * sudRep (80 - (9 * s.row + s.col).toNat)

/-- Termination measure for the backtracking loop: strictly increases on every
non-terminal iteration and is bounded by `sudPhiMax`. -/
def sudPhi (s : SolveSt) : Int := sudM s.sud + sudPot s

/-- Upper bound for `sudPhi` on states with cell values in `[0, 9]`. -/
def sudPhiMax : Int := 19 * sudRep 81

/-- A complete valid sudoku (the canonical shifted pattern), for witnesses. -/
def fullGrid : Grid := fun r c => ((3 * (r % 3) + r / 3 + c) % 9 + 1 : Int)

/-- `fullGrid` with the top-left cell blanked: a puzzle with one blank. -/
def gOneBlank : Grid := updateG fullGrid 0 0 0

/-- A valid but unsolvable grid: the blank at `(0, 0)` has no candidate
(2..9 in its row, 1 in its box at `(2, 2)`). -/
def gStuck : Grid := mkGrid [[0, 2, 3, 4, 5, 6, 7, 8, 9], [], [0, 0, 1]]

/-- A grid with a duplicate among its givens (two 1s in row 0). -/
def gDup : Grid := mkGrid [[1, 1]]

/-- The all-blank grid. -/
def zeroGrid : Grid := fun _ _ => 0

/-- An 8-character puzzle line (malformed: not 9 characters). -/
def lineBad8 : List Char := ['1', '2', '3', '4', '5', '6', '7', '8']

/-- A 9-character line of non-digit characters. -/
def lineAllA : List Char := ['a', 'a', 'a', 'a', 'a', 'a', 'a', 'a', 'a']

/-- A 9-character well-formed puzzle line. -/
def lineDigits : List Char := ['5', '3', '.', '.', '7', '.', '.', '.', '.']

/-- A comment line. -/
def lineHash : List Char := ['#']

/-- A 7-character puzzle line (malformed: not 9 characters). -/
def lineBad7 : List Char := ['1', '2', '3', '4', '5', '6', '7']

/-- Ten well-formed puzzle lines followed by a malformed one: the tenth
well-formed line already overflows the 9-row grid. -/
def linesOverflow : List (List Char) := List.replicate 10 lineDigits ++ [lineBad8]

/-- A file path used in witnesses. -/
def pathX : String := "x"

/-- Loop invariant: the cursor is at the terminal row, or points at an
in-range non-fixed cell. -/
def cursorOK (m : Mask) (s : SolveSt) : Prop :=
  s.row = 9 ∨
    (0 ≤ s.row ∧ s.row ≤ 8 ∧ 0 ≤ s.col ∧ s.col ≤ 8 ∧ m s.row.toNat s.col.toNat = false)

/-- Loop invariant: every in-range cell value lies in `[0, 9]`. -/
def valuesOK (s : SolveSt) : Prop :=
  ∀ r c : Nat, r < 9 → c < 9 → 0 ≤ s.sud r c ∧ s.sud r c ≤ 9

/-- Full invariant of the backtracking loop started on a valid grid `sud0`:
fixed cells hold their input values; values stay in `[0, 9]`; the cursor is
sane; while searching, non-fixed cells after the cursor are blank, non-fixed
cells before it hold placed digits, the grid with the cursor cell blanked is
valid, and `found` is still false; at a `found` terminal state the grid is
valid and every non-fixed cell holds a digit. -/
def searchInv (sud0 : Grid) (s : SolveSt) : Prop :=
  (∀ r c : Nat, r < 9 → c < 9 → sud_get_fixed sud0 r c = true → s.sud r c = sud0 r c) ∧
  valuesOK s ∧
  cursorOK (sud_get_fixed sud0) s ∧
  (s.row ≠ 9 → s.found = false) ∧
  (s.row ≠ 9 →
    (∀ q : Nat, q ≤ 80 → sud_get_fixed sud0 (q / 9) (q % 9) = false →
      (9 * s.row + s.col < (q : Int) → s.sud (q / 9) (q % 9) = 0) ∧
      ((q : Int) < 9 * s.row + s.col →
        1 ≤ s.sud (q / 9) (q % 9) ∧ s.sud (q / 9) (q % 9) ≤ 9)) ∧
    sud_is_valid (updateG s.sud s.row.toNat s.col.toNat 0) = true) ∧
  (s.row = 9 → s.found = true →
    sud_is_valid s.sud = true ∧
    (∀ r c : Nat, r < 9 → c < 9 → sud_get_fixed sud0 r c = false →
      1 ≤ s.sud r c ∧ s.sud r c ≤ 9))

/-! ### Characterisations of the grid predicates -/

theorem sud_is_solved_iff (g : Grid) :
    sud_is_solved g = true ↔ ∀ r, r < 9 → ∀ c, c < 9 → g r c ≠ 0 := by
  simp [sud_is_solved, List.all_eq_true, List.mem_range]

theorem sameUnit_symm {r c a b : Nat} (h : sameUnit r c a b) : sameUnit a b r c := by
  rcases h with h | h | h
  · exact Or.inl h.symm
  · exact Or.inr (Or.inl h.symm)
  · exact Or.inr (Or.inr ⟨h.1.symm, h.2.symm⟩)

theorem cell_valid_iff (g : Grid) (r c : Nat) (hr : r < 9) (hc : c < 9) :
    sud_cell_is_valid g r c = true ↔
      ∀ a b : Nat, a < 9 → b < 9 → ¬(a = r ∧ b = c) → sameUnit r c a b →
        g a b ≠ g r c := by
  simp only [sud_cell_is_valid, Bool.and_eq_true, List.all_eq_true, List.mem_range,
    Bool.or_eq_true, beq_iff_eq, bne_iff_ne, Bool.and_eq_true]
  constructor
  · rintro ⟨⟨hrow, hcol⟩, hbox⟩ a b ha hb hne hunit
    rcases hunit with h | h | h
    · subst h
      rcases hrow b hb with h' | h'
      · exact absurd ⟨rfl, h'⟩ hne
      · exact h'
    · subst h
      rcases hcol a ha with h' | h'
      · exact absurd ⟨h', rfl⟩ hne
      · exact h'
    · have hi : a = 3 * (r / 3) + (a - 3 * (r / 3)) ∧ a - 3 * (r / 3) < 3 := by omega
      have hj : b = 3 * (c / 3) + (b - 3 * (c / 3)) ∧ b - 3 * (c / 3) < 3 := by omega
      rcases hbox (a - 3 * (r / 3)) hi.2 (b - 3 * (c / 3)) hj.2 with h' | h'
      · rw [← hi.1, ← hj.1] at h'
        exact absurd ⟨h'.1, h'.2⟩ hne
      · rw [← hi.1, ← hj.1] at h'
        exact h'
  · intro h
    refine ⟨⟨?_, ?_⟩, ?_⟩
    · intro b hb
      by_cases hbc : b = c
      · exact Or.inl hbc
      · exact Or.inr (h r b hr hb (fun hx => hbc hx.2) (Or.inl rfl))
    · intro a ha
      by_cases har : a = r
      · exact Or.inl har
      · exact Or.inr (h a c ha hc (fun hx => har hx.1) (Or.inr (Or.inl rfl)))
    · intro i hi j hj
      by_cases hij : 3 * (r / 3) + i = r ∧ 3 * (c / 3) + j = c
      · exact Or.inl hij
      · refine Or.inr (h (3 * (r / 3) + i) (3 * (c / 3) + j) (by omega) (by omega) hij ?_)
        exact Or.inr (Or.inr ⟨by omega, by omega⟩)

theorem sud_is_valid_iff (g : Grid) :
    sud_is_valid g = true ↔
      ∀ r, r < 9 → ∀ c, c < 9 → 0 < g r c → sud_cell_is_valid g r c = true := by
  simp only [sud_is_valid, List.all_eq_true, List.mem_range, Bool.or_eq_true,
    Bool.not_eq_eq_eq_not, Bool.not_true, decide_eq_false_iff_not, not_lt,
    Bool.not_eq_true', gt_iff_lt]
  constructor
  · intro h r hr c hc hpos
    rcases h r hr c hc with h0 | h0
    · omega
    · exact h0
  · intro h r hr c hc
    rcases le_or_lt (g r c) 0 with h0 | h0
    · exact Or.inl (by simpa using h0)
    · exact Or.inr (h r hr c hc h0)

theorem updateG_self (g : Grid) (r c : Nat) (v : Int) : updateG g r c v r c = v := by
  simp [updateG]

theorem updateG_ne (g : Grid) (r c : Nat) (v : Int) {r' c' : Nat}
    (h : ¬(r' = r ∧ c' = c)) : updateG g r c v r' c' = g r' c' := by
  simp only [updateG, if_neg h]

theorem updateG_updateG (g : Grid) (r c : Nat) (a b : Int) :
    updateG (updateG g r c a) r c b = updateG g r c b := by
  funext r' c'
  by_cases h : r' = r ∧ c' = c
  · rw [h.1, h.2, updateG_self, updateG_self]
  · rw [updateG_ne _ _ _ _ h, updateG_ne _ _ _ _ h, updateG_ne _ _ _ _ h]

theorem valid_updateG_zero (g : Grid) (r c : Nat) (h : sud_is_valid g = true) :
    sud_is_valid (updateG g r c 0) = true := by
  rw [sud_is_valid_iff] at h ⊢
  intro a ha b hb hpos
  by_cases hab : a = r ∧ b = c
  · rw [hab.1, hab.2, updateG_self] at hpos
    omega
  · have hg : updateG g r c 0 a b = g a b := updateG_ne _ _ _ _ hab
    have hcell := h a ha b hb (by rw [hg] at hpos; exact hpos)
    rw [cell_valid_iff _ _ _ ha hb] at hcell ⊢
    intro a' b' ha' hb' hne hunit
    rw [hg]
    by_cases h2 : a' = r ∧ b' = c
    · rw [h2.1, h2.2, updateG_self]
      rw [hg] at hpos
      omega
    · rw [updateG_ne _ _ _ _ h2]
      exact hcell a' b' ha' hb' hne hunit

theorem valid_updateG_place (g : Grid) (r c : Nat) (v : Int) (hr : r < 9) (hc : c < 9)
    (h0 : sud_is_valid (updateG g r c 0) = true)
    (hcell : sud_cell_is_valid (updateG g r c v) r c = true) :
    sud_is_valid (updateG g r c v) = true := by
  rw [sud_is_valid_iff]
  intro a ha b hb hpos
  by_cases hab : a = r ∧ b = c
  · rw [hab.1, hab.2]
    exact hcell
  · have hg : updateG g r c v a b = updateG g r c 0 a b := by
      rw [updateG_ne _ _ _ _ hab, updateG_ne _ _ _ _ hab]
    have hcell0 := (sud_is_valid_iff _).mp h0 a ha b hb (by rw [← hg]; exact hpos)
    rw [cell_valid_iff _ _ _ ha hb] at hcell0 ⊢
    rw [cell_valid_iff _ _ _ hr hc] at hcell
    intro a' b' ha' hb' hne hunit
    by_cases h2 : a' = r ∧ b' = c
    · obtain ⟨hA, hB⟩ := h2
      subst hA; subst hB
      rw [updateG_self]
      have h3 := hcell a b ha hb hab (sameUnit_symm hunit)
      rw [updateG_self] at h3
      exact fun hx => h3 hx.symm
    · have h3 := hcell0 a' b' ha' hb' hne hunit
      rw [updateG_ne _ _ _ _ h2] at h3
      rw [updateG_ne _ _ _ _ h2, hg]
      exact h3

/-! ### Characterisation of the cursor stepper -/

theorem firstFreeFrom_some (m : Mask) :
    ∀ q t, firstFreeFrom m q = some t →
      q ≤ t ∧ t ≤ 80 ∧ m (t / 9) (t % 9) = false ∧
        ∀ u, q ≤ u → u < t → m (u / 9) (u % 9) = true := by
  suffices H : ∀ n q, 81 - q ≤ n → ∀ t, firstFreeFrom m q = some t →
      q ≤ t ∧ t ≤ 80 ∧ m (t / 9) (t % 9) = false ∧
        ∀ u, q ≤ u → u < t → m (u / 9) (u % 9) = true by
    exact fun q => H 81 q (by omega)
  intro n
  induction n with
  | zero =>
    intro q hq t h
    rw [firstFreeFrom, dif_neg (by omega : ¬ q ≤ 80)] at h
    cases h
  | succ n ih =>
    intro q hq t h
    rw [firstFreeFrom] at h
    by_cases h80 : q ≤ 80
    · rw [dif_pos h80] at h
      by_cases hm : m (q / 9) (q % 9) = true
      · rw [if_pos hm] at h
        have hrec := ih (q + 1) (by omega) t h
        refine ⟨by omega, hrec.2.1, hrec.2.2.1, ?_⟩
        intro u hqu hut
        rcases Nat.eq_or_lt_of_le hqu with heq | hlt
        · rw [heq] at hm
          exact hm
        · exact hrec.2.2.2 u hlt hut
      · rw [if_neg hm] at h
        injection h with h
        subst h
        exact ⟨Nat.le_refl _, h80, by simpa using hm, fun u h1 h2 => by omega⟩
    · rw [dif_neg h80] at h
      cases h

theorem firstFreeFrom_none (m : Mask) :
    ∀ q, firstFreeFrom m q = none ↔ ∀ u, q ≤ u → u ≤ 80 → m (u / 9) (u % 9) = true := by
  suffices H : ∀ n q, 81 - q ≤ n →
      (firstFreeFrom m q = none ↔ ∀ u, q ≤ u → u ≤ 80 → m (u / 9) (u % 9) = true) by
    exact fun q => H 81 q (by omega)
  intro n
  induction n with
  | zero =>
    intro q hq
    rw [firstFreeFrom, dif_neg (by omega : ¬ q ≤ 80)]
    exact ⟨fun _ u h1 h2 => by omega, fun _ => rfl⟩
  | succ n ih =>
    intro q hq
    by_cases h80 : q ≤ 80
    · rw [firstFreeFrom, dif_pos h80]
      by_cases hm : m (q / 9) (q % 9) = true
      · rw [if_pos hm, ih (q + 1) (by omega)]
        constructor
        · intro h u h1 h2
          rcases Nat.eq_or_lt_of_le h1 with heq | hlt
          · rw [heq] at hm
            exact hm
          · exact h u hlt h2
        · intro h u h1 h2
          exact h u (by omega) h2
      · rw [if_neg hm]
        refine ⟨fun h => ?_, fun h => ?_⟩
        · cases h
        · exact absurd (h q (Nat.le_refl _) h80) hm
    · rw [firstFreeFrom, dif_neg h80]
      exact ⟨fun _ u h1 h2 => by omega, fun _ => rfl⟩

theorem lastFreeFrom_some (m : Mask) :
    ∀ q : Int, q ≤ 80 → ∀ t, lastFreeFrom m q = some t →
      (t : Int) ≤ q ∧ t ≤ 80 ∧ m (t / 9) (t % 9) = false ∧
        ∀ u : Nat, (u : Int) ≤ q → t < u → m (u / 9) (u % 9) = true := by
  suffices H : ∀ n (q : Int), (q + 1).toNat ≤ n → q ≤ 80 → ∀ t, lastFreeFrom m q = some t →
      (t : Int) ≤ q ∧ t ≤ 80 ∧ m (t / 9) (t % 9) = false ∧
        ∀ u : Nat, (u : Int) ≤ q → t < u → m (u / 9) (u % 9) = true by
    exact fun q hq => H 82 q (by omega) hq
  intro n
  induction n with
  | zero =>
    intro q hn hq t h
    rw [lastFreeFrom, dif_neg (by omega : ¬ (0 : Int) ≤ q)] at h
    cases h
  | succ n ih =>
    intro q hn hq t h
    rw [lastFreeFrom] at h
    by_cases h0 : (0 : Int) ≤ q
    · rw [dif_pos h0] at h
      by_cases hm : m (q.toNat / 9) (q.toNat % 9) = true
      · rw [if_pos hm] at h
        have hrec := ih (q - 1) (by omega) (by omega) t h
        refine ⟨by omega, hrec.2.1, hrec.2.2.1, ?_⟩
        intro u h1 h2
        by_cases hu : (u : Int) = q
        · have : u = q.toNat := by omega
          rw [this] at *
          exact hm
        · exact hrec.2.2.2 u (by omega) h2
      · rw [if_neg hm] at h
        injection h with h
        subst h
        refine ⟨by omega, by omega, by simpa using hm, ?_⟩
        intro u h1 h2
        omega
    · rw [dif_neg h0] at h
      cases h

theorem lastFreeFrom_none (m : Mask) :
    ∀ q : Int, q ≤ 80 →
      (lastFreeFrom m q = none ↔ ∀ u : Nat, (u : Int) ≤ q → m (u / 9) (u % 9) = true) := by
  suffices H : ∀ n (q : Int), (q + 1).toNat ≤ n → q ≤ 80 →
      (lastFreeFrom m q = none ↔ ∀ u : Nat, (u : Int) ≤ q → m (u / 9) (u % 9) = true) by
    exact fun q hq => H 82 q (by omega) hq
  intro n
  induction n with
  | zero =>
    intro q hn hq
    rw [lastFreeFrom, dif_neg (by omega : ¬ (0 : Int) ≤ q)]
    exact ⟨fun _ u h1 => by omega, fun _ => rfl⟩
  | succ n ih =>
    intro q hn hq
    by_cases h0 : (0 : Int) ≤ q
    · rw [lastFreeFrom, dif_pos h0]
      by_cases hm : m (q.toNat / 9) (q.toNat % 9) = true
      · rw [if_pos hm, ih (q - 1) (by omega) (by omega)]
        constructor
        · intro h u h1
          by_cases hu : (u : Int) = q
          · have : u = q.toNat := by omega
            rw [this]
            exact hm
          · exact h u (by omega)
        · intro h u h1
          exact h u (by omega)
      · rw [if_neg hm]
        refine ⟨fun h => ?_, fun h => ?_⟩
        · cases h
        · exact absurd (by simpa using h q.toNat (by omega)) (by simpa using hm)
    · rw [lastFreeFrom, dif_neg h0]
      exact ⟨fun _ u h1 => by omega, fun _ => rfl⟩

theorem stepCellF_of_out (m : Mask) (p : Int) (h : 80 ≤ p) : stepCellF m p = (9, 9) := by
  rw [stepCellF, firstFreeFrom, dif_neg (by omega : ¬ (p + 1).toNat ≤ 80)]

theorem stepCellF_of_fixed (m : Mask) (p : Int) (h0 : -1 ≤ p) (h1 : p ≤ 79)
    (hm : m ((p + 1).toNat / 9) ((p + 1).toNat % 9) = true) :
    stepCellF m p = stepCellF m (p + 1) := by
  rw [stepCellF, stepCellF, firstFreeFrom, dif_pos (by omega : (p + 1).toNat ≤ 80), if_pos hm]
  have h2 : (p + 1 + 1).toNat = (p + 1).toNat + 1 := by omega
  rw [h2]

theorem stepCellF_of_free (m : Mask) (p : Int) (h0 : -1 ≤ p) (h1 : p ≤ 79)
    (hm : m ((p + 1).toNat / 9) ((p + 1).toNat % 9) = false) :
    stepCellF m p = ((((p + 1).toNat / 9 : Nat) : Int), (((p + 1).toNat % 9 : Nat) : Int)) := by
  rw [stepCellF, firstFreeFrom, dif_pos (by omega : (p + 1).toNat ≤ 80),
    if_neg (by rw [hm]; exact Bool.false_ne_true)]

theorem stepCellB_of_out (m : Mask) (p : Int) (h : p ≤ 0) : stepCellB m p = (9, 9) := by
  rw [stepCellB, lastFreeFrom, dif_neg (by omega : ¬ (0 : Int) ≤ p - 1)]

theorem stepCellB_of_fixed (m : Mask) (p : Int) (h0 : 1 ≤ p)
    (hm : m ((p - 1).toNat / 9) ((p - 1).toNat % 9) = true) :
    stepCellB m p = stepCellB m (p - 1) := by
  rw [stepCellB, stepCellB, lastFreeFrom, dif_pos (by omega : (0 : Int) ≤ p - 1), if_pos hm]

theorem stepCellB_of_free (m : Mask) (p : Int) (h0 : 1 ≤ p)
    (hm : m ((p - 1).toNat / 9) ((p - 1).toNat % 9) = false) :
    stepCellB m p = ((((p - 1).toNat / 9 : Nat) : Int), (((p - 1).toNat % 9 : Nat) : Int)) := by
  rw [stepCellB, lastFreeFrom, dif_pos (by omega : (0 : Int) ≤ p - 1),
    if_neg (by rw [hm]; exact Bool.false_ne_true)]

theorem sud_step_go_forward (m : Mask) :
    ∀ (fuel : Nat) (irow icol : Int), 0 ≤ irow → irow ≤ 8 → -1 ≤ icol → icol ≤ 8 →
      (81 : Int) ≤ (fuel : Int) + (9 * irow + icol) →
      sud_step_go m irow icol 1 fuel = some (stepCellF m (9 * irow + icol)) := by
  intro fuel
  induction fuel with
  | zero =>
    intro irow icol h1 h2 h3 h4 h5
    exfalso
    push_cast at h5
    omega
  | succ n ih =>
    intro irow icol h1 h2 h3 h4 h5
    obtain ⟨jrow, jcol, hrc, hsum, hj0, hj8, hjr0⟩ :
        ∃ jrow jcol, wrapCell irow icol 1 = (jrow, jcol) ∧
          9 * jrow + jcol = 9 * irow + icol + 1 ∧ 0 ≤ jcol ∧ jcol ≤ 8 ∧ 0 ≤ jrow := by
      by_cases hw : icol + 1 > 8
      · exact ⟨irow + 1, 0, by rw [wrapCell]; rw [if_neg (by omega), if_pos hw], by omega,
          by omega, by omega, by omega⟩
      · exact ⟨irow, icol + 1, by rw [wrapCell]; rw [if_neg (by omega), if_neg hw], by omega,
          by omega, by omega, by omega⟩
    show (let rc := wrapCell irow icol 1
          if rc.1 < 0 ∨ rc.1 > 8 then some (9, 9)
          else if m rc.1.toNat rc.2.toNat then sud_step_go m rc.1 rc.2 1 n
          else some (rc.1, rc.2)) = some (stepCellF m (9 * irow + icol))
    rw [hrc]
    by_cases hout : jrow > 8
    · rw [if_pos (Or.inr hout)]
      rw [stepCellF_of_out m _ (by omega)]
    · rw [if_neg (by omega)]
      have hP9 : jrow.toNat = (9 * irow + icol + 1).toNat / 9 := by omega
      have hPm : jcol.toNat = (9 * irow + icol + 1).toNat % 9 := by omega
      by_cases hm : m jrow.toNat jcol.toNat = true
      · rw [if_pos hm]
        have hrec := ih jrow jcol hjr0 (by omega) (by omega) hj8 (by push_cast; push_cast at h5; omega)
        rw [hrec, hsum]
        rw [stepCellF_of_fixed m (9 * irow + icol) (by omega) (by omega)
          (by rw [← hP9, ← hPm]; exact hm)]
      · rw [if_neg hm]
        rw [Bool.not_eq_true] at hm
        rw [stepCellF_of_free m (9 * irow + icol) (by omega) (by omega)
          (by rw [← hP9, ← hPm]; exact hm)]
        have e1 : (((9 * irow + icol + 1).toNat / 9 : Nat) : Int) = jrow := by omega
        have e2 : (((9 * irow + icol + 1).toNat % 9 : Nat) : Int) = jcol := by omega
        rw [e1, e2]

theorem sud_step_go_backward (m : Mask) :
    ∀ (fuel : Nat) (irow icol : Int), 0 ≤ irow → irow ≤ 8 → 0 ≤ icol → icol ≤ 8 →
      9 * irow + icol < (fuel : Int) →
      sud_step_go m irow icol (-1) fuel = some (stepCellB m (9 * irow + icol)) := by
  intro fuel
  induction fuel with
  | zero =>
    intro irow icol h1 h2 h3 h4 h5
    exfalso
    push_cast at h5
    omega
  | succ n ih =>
    intro irow icol h1 h2 h3 h4 h5
    obtain ⟨jrow, jcol, hrc, hsum, hj0, hj8, hjr8⟩ :
        ∃ jrow jcol, wrapCell irow icol (-1) = (jrow, jcol) ∧
          9 * jrow + jcol = 9 * irow + icol - 1 ∧ 0 ≤ jcol ∧ jcol ≤ 8 ∧ jrow ≤ 8 := by
      by_cases hw : icol + (-1) < 0
      · exact ⟨irow - 1, 8, by rw [wrapCell]; rw [if_pos hw], by omega,
          by omega, by omega, by omega⟩
      · exact ⟨irow, icol + (-1), by rw [wrapCell]; rw [if_neg hw, if_neg (by omega)], by omega,
          by omega, by omega, by omega⟩
    show (let rc := wrapCell irow icol (-1)
          if rc.1 < 0 ∨ rc.1 > 8 then some (9, 9)
          else if m rc.1.toNat rc.2.toNat then sud_step_go m rc.1 rc.2 (-1) n
          else some (rc.1, rc.2)) = some (stepCellB m (9 * irow + icol))
    rw [hrc]
    by_cases hout : jrow < 0
    · rw [if_pos (Or.inl hout)]
      rw [stepCellB_of_out m _ (by omega)]
    · rw [if_neg (by omega)]
      have hP9 : jrow.toNat = (9 * irow + icol - 1).toNat / 9 := by omega
      have hPm : jcol.toNat = (9 * irow + icol - 1).toNat % 9 := by omega
      by_cases hm : m jrow.toNat jcol.toNat = true
      · rw [if_pos hm]
        have hrec := ih jrow jcol (by omega) hjr8 hj0 hj8 (by push_cast; push_cast at h5; omega)
        rw [hrec, hsum]
        rw [stepCellB_of_fixed m (9 * irow + icol) (by omega)
          (by rw [← hP9, ← hPm]; exact hm)]
      · rw [if_neg hm]
        rw [Bool.not_eq_true] at hm
        rw [stepCellB_of_free m (9 * irow + icol) (by omega)
          (by rw [← hP9, ← hPm]; exact hm)]
        have e1 : (((9 * irow + icol - 1).toNat / 9 : Nat) : Int) = jrow := by omega
        have e2 : (((9 * irow + icol - 1).toNat % 9 : Nat) : Int) = jcol := by omega
        rw [e1, e2]

theorem sud_step_forward_eq (m : Mask) (row col : Int) (h1 : 0 ≤ row) (h2 : row ≤ 8)
    (h3 : -1 ≤ col) (h4 : col ≤ 8) :
    sud_step m row col 1 = stepCellF m (9 * row + col) := by
  rw [sud_step, sud_step_go_forward m 100 row col h1 h2 h3 h4 (by push_cast; omega)]
  rfl

theorem sud_step_backward_eq (m : Mask) (row col : Int) (h1 : 0 ≤ row) (h2 : row ≤ 8)
    (h3 : 0 ≤ col) (h4 : col ≤ 8) :
    sud_step m row col (-1) = stepCellB m (9 * row + col) := by
  rw [sud_step, sud_step_go_backward m 100 row col h1 h2 h3 h4 (by push_cast; omega)]
  rfl

theorem stepCellF_cases (m : Mask) (p : Int) (h0 : -1 ≤ p) :
    (stepCellF m p = (9, 9) ∧ ∀ u : Nat, p < (u : Int) → u ≤ 80 → m (u / 9) (u % 9) = true) ∨
    (∃ t : Nat, t ≤ 80 ∧ p < (t : Int) ∧ m (t / 9) (t % 9) = false ∧
      stepCellF m p = (((t / 9 : Nat) : Int), ((t % 9 : Nat) : Int)) ∧
      ∀ u : Nat, p < (u : Int) → u < t → m (u / 9) (u % 9) = true) := by
  rcases hf : firstFreeFrom m (p + 1).toNat with _ | t
  · left
    constructor
    · rw [stepCellF, hf]
    · intro u hu h80
      exact ((firstFreeFrom_none m _).mp hf) u (by omega) h80
  · right
    have hs := firstFreeFrom_some m _ _ hf
    refine ⟨t, hs.2.1, by omega, hs.2.2.1, ?_, ?_⟩
    · rw [stepCellF, hf]
    · intro u hu hut
      exact hs.2.2.2 u (by omega) hut

theorem stepCellB_cases (m : Mask) (p : Int) (h0 : p ≤ 81) :
    (stepCellB m p = (9, 9) ∧ ∀ u : Nat, (u : Int) < p → m (u / 9) (u % 9) = true) ∨
    (∃ t : Nat, t ≤ 80 ∧ (t : Int) < p ∧ m (t / 9) (t % 9) = false ∧
      stepCellB m p = (((t / 9 : Nat) : Int), ((t % 9 : Nat) : Int)) ∧
      ∀ u : Nat, t < u → (u : Int) < p → m (u / 9) (u % 9) = true) := by
  rcases hf : lastFreeFrom m (p - 1) with _ | t
  · left
    constructor
    · rw [stepCellB, hf]
    · intro u hu
      exact ((lastFreeFrom_none m _ (by omega)).mp hf) u (by omega)
  · right
    have hs := lastFreeFrom_some m _ (by omega) _ hf
    refine ⟨t, hs.2.1, by omega, hs.2.2.1, ?_, ?_⟩
    · rw [stepCellB, hf]
    · intro u hu1 hu2
      exact hs.2.2.2 u (by omega) hu1

/-- C4: for every fixed mask, in-grid starting position and direction `+1` or
`-1`, `sud_step` returns the first non-fixed cell encountered advancing one
cell at a time in row-major order (column wrapping 8→0 with `row + 1` forward,
0→8 with `row - 1` backward, i.e. position `p = 9*row + col` moving by `±1`),
and returns the sentinel `(9, 9)` exactly when the traversal leaves the grid
bounds before finding a non-fixed cell. -/
theorem sud_step_first_nonfixed_spec (m : Mask) (r c : Nat) (hr : r < 9) (hc : c < 9) :
    ((sud_step m r c 1 = (9, 9) ↔
        ∀ u : Nat, 9 * r + c < u → u ≤ 80 → m (u / 9) (u % 9) = true) ∧
     (∀ t : Nat, t ≤ 80 → 9 * r + c < t → m (t / 9) (t % 9) = false →
        (∀ u : Nat, 9 * r + c < u → u < t → m (u / 9) (u % 9) = true) →
        sud_step m r c 1 = (((t / 9 : Nat) : Int), ((t % 9 : Nat) : Int)))) ∧
    ((sud_step m r c (-1) = (9, 9) ↔
        ∀ u : Nat, u < 9 * r + c → m (u / 9) (u % 9) = true) ∧
     (∀ t : Nat, t < 9 * r + c → m (t / 9) (t % 9) = false →
        (∀ u : Nat, t < u → u < 9 * r + c → m (u / 9) (u % 9) = true) →
        sud_step m r c (-1) = (((t / 9 : Nat) : Int), ((t % 9 : Nat) : Int)))) := by
  have hforward : sud_step m r c 1 = stepCellF m (9 * (r : Int) + (c : Int)) :=
    sud_step_forward_eq m r c (by omega) (by omega) (by omega) (by omega)
  have hbackward : sud_step m r c (-1) = stepCellB m (9 * (r : Int) + (c : Int)) :=
    sud_step_backward_eq m r c (by omega) (by omega) (by omega) (by omega)
  constructor
  · rcases stepCellF_cases m (9 * (r : Int) + (c : Int)) (by omega) with
      ⟨hout, hall⟩ | ⟨t, ht80, htgt, htfree, heq, hbetween⟩
    · constructor
      · rw [hforward, hout]
        exact ⟨fun _ u hu h80 => hall u (by omega) h80, fun _ => rfl⟩
      · intro t ht80 htgt htfree _
        exact absurd (hall t (by omega) ht80) (by rw [htfree]; exact Bool.false_ne_true)
    · constructor
      · rw [hforward, heq]
        constructor
        · intro hbad
          exfalso
          have h9 : ((t / 9 : Nat) : Int) = 9 := congrArg Prod.fst hbad
          omega
        · intro hall
          exact absurd (hall t (by omega) ht80) (by rw [htfree]; exact Bool.false_ne_true)
      · intro t' ht80' htgt' htfree' hbetween'
        rw [hforward, heq]
        have htt : t = t' := by
          by_contra hne
          rcases Nat.lt_or_ge t t' with hlt | hge
          · exact absurd (hbetween' t (by omega) hlt) (by rw [htfree]; exact Bool.false_ne_true)
          · exact absurd (hbetween t' (by omega) (by omega))
              (by rw [htfree']; exact Bool.false_ne_true)
        rw [htt]
  · rcases stepCellB_cases m (9 * (r : Int) + (c : Int)) (by omega) with
      ⟨hout, hall⟩ | ⟨t, ht80, htlt, htfree, heq, hbetween⟩
    · constructor
      · rw [hbackward, hout]
        exact ⟨fun _ u hu => hall u (by omega), fun _ => rfl⟩
      · intro t htlt htfree _
        exact absurd (hall t (by omega)) (by rw [htfree]; exact Bool.false_ne_true)
    · constructor
      · rw [hbackward, heq]
        constructor
        · intro hbad
          exfalso
          have h9 : ((t / 9 : Nat) : Int) = 9 := congrArg Prod.fst hbad
          omega
        · intro hall
          exact absurd (hall t (by omega)) (by rw [htfree]; exact Bool.false_ne_true)
      · intro t' htlt' htfree' hbetween'
        rw [hbackward, heq]
        have htt : t = t' := by
          by_contra hne
          rcases Nat.lt_or_ge t t' with hlt | hge
          · exact absurd (hbetween t' hlt (by omega)) (by rw [htfree']; exact Bool.false_ne_true)
          · exact absurd (hbetween' t (by omega) (by omega))
              (by rw [htfree]; exact Bool.false_ne_true)
        rw [htt]

/-! ### Basic facts about the backtracking loop -/

theorem solveLoop_terminal (m : Mask) (k : Nat) (s : SolveSt) (h : s.row = 9) :
    solveLoop m k s = s := by
  cases k with
  | zero => rfl
  | succ n => simp only [solveLoop, if_pos h]

theorem solveLoop_succ (m : Mask) (n : Nat) (s : SolveSt) :
    solveLoop m (n + 1) s = if s.row = 9 then s else solveLoop m n (solveStep m s) := rfl

theorem sud_get_fixed_iff (g : Grid) (r c : Nat) :
    sud_get_fixed g r c = true ↔ 0 < g r c := by
  simp [sud_get_fixed]

theorem toNat_cast (n : Nat) : ((n : Int)).toNat = n := by omega

theorem updateG_noop (g : Grid) (r c : Nat) (v : Int) (h : g r c = v) :
    updateG g r c v = g := by
  funext a b
  by_cases hab : a = r ∧ b = c
  · rw [hab.1, hab.2, updateG_self, h]
  · rw [updateG_ne _ _ _ _ hab]

theorem solveStep_reset (m : Mask) (s : SolveSt)
    (h : s.sud s.row.toNat s.col.toNat + 1 > 9) :
    solveStep m s =
      { sud := updateG s.sud s.row.toNat s.col.toNat 0,
        row := (sud_step m s.row s.col (-1)).1,
        col := (sud_step m s.row s.col (-1)).2,
        found := s.found } := by
  rw [solveStep, if_pos h]

theorem solveStep_place_valid (m : Mask) (s : SolveSt)
    (h : ¬ s.sud s.row.toNat s.col.toNat + 1 > 9)
    (hcv : sud_cell_is_valid
      (updateG s.sud s.row.toNat s.col.toNat (s.sud s.row.toNat s.col.toNat + 1))
      s.row.toNat s.col.toNat = true) :
    solveStep m s =
      { sud := updateG s.sud s.row.toNat s.col.toNat (s.sud s.row.toNat s.col.toNat + 1),
        row := (sud_step m s.row s.col 1).1,
        col := (sud_step m s.row s.col 1).2,
        found := s.found || ((sud_step m s.row s.col 1).1 == 9) } := by
  rw [solveStep, if_neg h, if_pos hcv]

theorem solveStep_place_invalid (m : Mask) (s : SolveSt)
    (h : ¬ s.sud s.row.toNat s.col.toNat + 1 > 9)
    (hcv : ¬ sud_cell_is_valid
      (updateG s.sud s.row.toNat s.col.toNat (s.sud s.row.toNat s.col.toNat + 1))
      s.row.toNat s.col.toNat = true) :
    solveStep m s =
      { sud := updateG s.sud s.row.toNat s.col.toNat (s.sud s.row.toNat s.col.toNat + 1),
        row := s.row, col := s.col, found := s.found } := by
  rw [solveStep, if_neg h, if_neg hcv]

theorem cursorOK_init (sud : Grid) : cursorOK (sud_get_fixed sud) (solveInit sud) := by
  simp only [solveInit]
  rw [sud_step_forward_eq (sud_get_fixed sud) 0 (-1) (by omega) (by omega) (by omega) (by omega)]
  rcases stepCellF_cases (sud_get_fixed sud) (9 * 0 + -1) (by omega) with
    ⟨hout, _⟩ | ⟨t, ht80, _, htfree, heq, _⟩
  · rw [hout]
    left
    by_cases hv : sud_is_valid sud = true
    · rw [if_pos hv]
    · rw [if_neg hv]
  · rw [heq]
    by_cases hv : sud_is_valid sud = true
    · rw [if_pos hv]
      right
      dsimp only
      refine ⟨by omega, by omega, by omega, by omega, ?_⟩
      show sud_get_fixed sud ((((t / 9 : Nat) : Int)).toNat) ((((t % 9 : Nat) : Int)).toNat) = false
      rw [toNat_cast, toNat_cast]
      exact htfree
    · rw [if_neg hv]
      left
      rfl

theorem cursorOK_step (m : Mask) (s : SolveSt) (h : cursorOK m s) (hrow : s.row ≠ 9) :
    cursorOK m (solveStep m s) := by
  rcases h with h9 | ⟨hr0, hr8, hc0, hc8, hmf⟩
  · exact absurd h9 hrow
  by_cases hbig : s.sud s.row.toNat s.col.toNat + 1 > 9
  · rw [solveStep_reset m s hbig]
    rw [sud_step_backward_eq m s.row s.col hr0 hr8 hc0 hc8]
    rcases stepCellB_cases m (9 * s.row + s.col) (by omega) with
      ⟨hout, _⟩ | ⟨t, ht80, _, htfree, heq, _⟩
    · rw [hout]
      left
      rfl
    · rw [heq]
      right
      dsimp only
      refine ⟨by omega, by omega, by omega, by omega, ?_⟩
      show m ((((t / 9 : Nat) : Int)).toNat) ((((t % 9 : Nat) : Int)).toNat) = false
      rw [toNat_cast, toNat_cast]
      exact htfree
  · by_cases hcv : sud_cell_is_valid
        (updateG s.sud s.row.toNat s.col.toNat (s.sud s.row.toNat s.col.toNat + 1))
        s.row.toNat s.col.toNat = true
    · rw [solveStep_place_valid m s hbig hcv]
      rw [sud_step_forward_eq m s.row s.col hr0 hr8 (by omega) hc8]
      rcases stepCellF_cases m (9 * s.row + s.col) (by omega) with
        ⟨hout, _⟩ | ⟨t, ht80, _, htfree, heq, _⟩
      · rw [hout]
        left
        rfl
      · rw [heq]
        right
        dsimp only
        refine ⟨by omega, by omega, by omega, by omega, ?_⟩
        show m ((((t / 9 : Nat) : Int)).toNat) ((((t % 9 : Nat) : Int)).toNat) = false
        rw [toNat_cast, toNat_cast]
        exact htfree
    · rw [solveStep_place_invalid m s hbig hcv]
      right
      exact ⟨hr0, hr8, hc0, hc8, hmf⟩

theorem fixed_unchanged_step (m : Mask) (s : SolveSt) (hcur : cursorOK m s)
    (hrow : s.row ≠ 9) (r c : Nat) (hf : m r c = true) :
    (solveStep m s).sud r c = s.sud r c := by
  rcases hcur with h9 | ⟨hr0, hr8, hc0, hc8, hmf⟩
  · exact absurd h9 hrow
  have hne : ¬(r = s.row.toNat ∧ c = s.col.toNat) := by
    rintro ⟨rfl, rfl⟩
    rw [hf] at hmf
    cases hmf
  by_cases hbig : s.sud s.row.toNat s.col.toNat + 1 > 9
  · rw [solveStep_reset m s hbig]
    exact updateG_ne _ _ _ _ hne
  · by_cases hcv : sud_cell_is_valid
        (updateG s.sud s.row.toNat s.col.toNat (s.sud s.row.toNat s.col.toNat + 1))
        s.row.toNat s.col.toNat = true
    · rw [solveStep_place_valid m s hbig hcv]
      exact updateG_ne _ _ _ _ hne
    · rw [solveStep_place_invalid m s hbig hcv]
      exact updateG_ne _ _ _ _ hne

/-- C5: throughout every run of the backtracking engine, a cell marked true in
the fixed mask is never written: after any number of loop iterations the
working grid agrees with the input grid on every fixed cell. -/
theorem solver_never_writes_fixed (sud : Grid) (k : Nat) (r c : Nat)
    (hr : r < 9) (hc : c < 9) (hf : sud_get_fixed sud r c = true) :
    (solveLoop (sud_get_fixed sud) k (solveInit sud)).sud r c = sud r c := by
  suffices H : ∀ (k : Nat) (s : SolveSt), cursorOK (sud_get_fixed sud) s →
      (solveLoop (sud_get_fixed sud) k s).sud r c = s.sud r c by
    exact H k (solveInit sud) (cursorOK_init sud)
  intro k
  induction k with
  | zero => intro s _; rfl
  | succ n ih =>
    intro s hcur
    by_cases h9 : s.row = 9
    · rw [solveLoop_terminal _ _ _ h9]
    · rw [solveLoop_succ, if_neg h9]
      rw [ih (solveStep _ s) (cursorOK_step _ s hcur h9)]
      exact fixed_unchanged_step _ s hcur h9 r c hf

/-- Witness for C5 at a concrete grid, iteration count and fixed cell. -/
theorem solver_never_writes_fixed_witness :
    (0 : Nat) < 9 ∧ (0 : Nat) < 9 ∧ sud_get_fixed gDup 0 0 = true ∧
      (solveLoop (sud_get_fixed gDup) 3 (solveInit gDup)).sud 0 0 = gDup 0 0 :=
  ⟨by decide, by decide, by decide,
    solver_never_writes_fixed gDup 3 0 0 (by decide) (by decide) (by decide)⟩

/-! ### The full search invariant (for claim C1) -/

theorem sud_get_fixed_false_iff (g : Grid) (r c : Nat) :
    sud_get_fixed g r c = false ↔ g r c ≤ 0 := by
  simp [sud_get_fixed]

theorem fixedPres_update (sud0 g : Grid) (r c : Nat)
    (hm : sud_get_fixed sud0 r c = false)
    (hfix : ∀ a b : Nat, a < 9 → b < 9 → sud_get_fixed sud0 a b = true → g a b = sud0 a b)
    (v : Int) :
    ∀ a b : Nat, a < 9 → b < 9 → sud_get_fixed sud0 a b = true →
      updateG g r c v a b = sud0 a b := by
  intro a b ha hb hf
  have hne : ¬(a = r ∧ b = c) := by
    rintro ⟨rfl, rfl⟩
    rw [hf] at hm
    cases hm
  rw [updateG_ne _ _ _ _ hne]
  exact hfix a b ha hb hf

theorem values_update (g : Grid)
    (hg : ∀ a b : Nat, a < 9 → b < 9 → 0 ≤ g a b ∧ g a b ≤ 9)
    (r c : Nat) (v : Int) (hv0 : 0 ≤ v) (hv9 : v ≤ 9) :
    ∀ a b : Nat, a < 9 → b < 9 →
      0 ≤ updateG g r c v a b ∧ updateG g r c v a b ≤ 9 := by
  intro a b ha hb
  by_cases hab : a = r ∧ b = c
  · rw [hab.1, hab.2, updateG_self]
    exact ⟨hv0, hv9⟩
  · rw [updateG_ne _ _ _ _ hab]
    exact hg a b ha hb

theorem searchInv_init (sud0 : Grid)
    (hvals : ∀ r c : Nat, r < 9 → c < 9 → 0 ≤ sud0 r c ∧ sud0 r c ≤ 9)
    (hvalid : sud_is_valid sud0 = true) :
    searchInv sud0 (solveInit sud0) := by
  simp only [solveInit, if_pos hvalid]
  rw [sud_step_forward_eq (sud_get_fixed sud0) 0 (-1) (by omega) (by omega) (by omega) (by omega)]
  rcases stepCellF_cases (sud_get_fixed sud0) (9 * 0 + -1) (by omega) with
    ⟨hout, hall⟩ | ⟨t, ht80, _, htfree, heq, hbetween⟩
  · rw [hout]
    refine ⟨?_, ?_, ?_, ?_, ?_, ?_⟩ <;> dsimp only
    · intro a b _ _ _
      rfl
    · exact hvals
    · left
      rfl
    · intro h
      exact absurd rfl h
    · intro h
      exact absurd rfl h
    · intro _ _
      refine ⟨hvalid, ?_⟩
      intro a b ha hb hfree
      exfalso
      have hq := hall (9 * a + b) (by omega) (by omega)
      have e1 : (9 * a + b) / 9 = a := by omega
      have e2 : (9 * a + b) % 9 = b := by omega
      rw [e1, e2, hfree] at hq
      cases hq
  · rw [heq]
    refine ⟨?_, ?_, ?_, ?_, ?_, ?_⟩ <;> dsimp only
    · intro a b _ _ _
      rfl
    · exact hvals
    · right
      dsimp only
      refine ⟨by omega, by omega, by omega, by omega, ?_⟩
      rw [toNat_cast, toNat_cast]
      exact htfree
    · intro _
      rw [beq_eq_false_iff_ne]
      omega
    · intro _
      have hptq : 9 * ((t / 9 : Nat) : Int) + ((t % 9 : Nat) : Int) = (t : Int) := by omega
      constructor
      · intro q hq80 hqfree
        rw [hptq]
        constructor
        · intro _
          have h0 := (sud_get_fixed_false_iff sud0 _ _).mp hqfree
          have h1 := hvals (q / 9) (q % 9) (by omega) (by omega)
          omega
        · intro hlt
          exfalso
          have hq := hbetween q (by omega) (by omega)
          rw [hqfree] at hq
          cases hq
      · rw [toNat_cast, toNat_cast]
        have hz : sud0 (t / 9) (t % 9) = 0 := by
          have h0 := (sud_get_fixed_false_iff sud0 _ _).mp htfree
          have h1 := hvals (t / 9) (t % 9) (by omega) (by omega)
          omega
        rw [updateG_noop _ _ _ _ hz]
        exact hvalid
    · intro h9 _
      exact absurd h9 (by omega)

theorem searchInv_step (sud0 : Grid) (s : SolveSt)
    (hinv : searchInv sud0 s) (hrow : s.row ≠ 9) :
    searchInv sud0 (solveStep (sud_get_fixed sud0) s) := by
  obtain ⟨hfix, hvals, hcur, hnf, hloop, _⟩ := hinv
  rcases hcur with h9 | ⟨hr0, hr8, hc0, hc8, hmf⟩
  · exact absurd h9 hrow
  obtain ⟨hzones, hvalid0⟩ := hloop hrow
  have hfound := hnf hrow
  have hrnat : ((s.row.toNat : Nat) : Int) = s.row := by omega
  have hcnat : ((s.col.toNat : Nat) : Int) = s.col := by omega
  have hrlt : s.row.toNat < 9 := by omega
  have hclt : s.col.toNat < 9 := by omega
  have hcell1 : (9 * s.row.toNat + s.col.toNat) / 9 = s.row.toNat := by omega
  have hcell2 : (9 * s.row.toNat + s.col.toNat) % 9 = s.col.toNat := by omega
  have hval := hvals s.row.toNat s.col.toNat hrlt hclt
  by_cases hbig : s.sud s.row.toNat s.col.toNat + 1 > 9
  · -- reset the cell to 0 and step backward
    rw [solveStep_reset _ s hbig,
      sud_step_backward_eq _ s.row s.col hr0 hr8 hc0 hc8]
    rcases stepCellB_cases (sud_get_fixed sud0) (9 * s.row + s.col) (by omega) with
      ⟨hout, hall⟩ | ⟨t, ht80, htlt, htfree, heq, hbetween⟩
    · rw [hout]
      refine ⟨?_, ?_, ?_, ?_, ?_, ?_⟩ <;> dsimp only
      · exact fixedPres_update sud0 s.sud _ _ hmf hfix 0
      · exact values_update s.sud hvals _ _ 0 (by omega) (by omega)
      · left
        rfl
      · intro _
        exact hfound
      · intro h
        exact absurd rfl h
      · intro _ hf
        rw [hfound] at hf
        cases hf
    · rw [heq]
      have hptq : 9 * ((t / 9 : Nat) : Int) + ((t % 9 : Nat) : Int) = (t : Int) := by omega
      refine ⟨?_, ?_, ?_, ?_, ?_, ?_⟩ <;> dsimp only
      · exact fixedPres_update sud0 s.sud _ _ hmf hfix 0
      · exact values_update s.sud hvals _ _ 0 (by omega) (by omega)
      · right
        dsimp only
        refine ⟨by omega, by omega, by omega, by omega, ?_⟩
        rw [toNat_cast, toNat_cast]
        exact htfree
      · intro _
        exact hfound
      · intro _
        constructor
        · intro q hq80 hqfree
          rw [hptq]
          constructor
          · intro hgt
            by_cases hqp : q = 9 * s.row.toNat + s.col.toNat
            · rw [hqp, hcell1, hcell2, updateG_self]
            · have hne : ¬(q / 9 = s.row.toNat ∧ q % 9 = s.col.toNat) := by
                intro hh
                exact hqp (by omega)
              rw [updateG_ne _ _ _ _ hne]
              by_cases hql : (q : Int) < 9 * s.row + s.col
              · exfalso
                have hu := hbetween q (by omega) (by omega)
                rw [hqfree] at hu
                cases hu
              · have hqgt : 9 * s.row + s.col < (q : Int) := by omega
                exact (hzones q hq80 hqfree).1 hqgt
          · intro hlt
            have hne : ¬(q / 9 = s.row.toNat ∧ q % 9 = s.col.toNat) := by
              intro hh
              omega
            rw [updateG_ne _ _ _ _ hne]
            exact (hzones q hq80 hqfree).2 (by omega)
        · rw [toNat_cast, toNat_cast]
          exact valid_updateG_zero _ _ _ hvalid0
      · intro h9 _
        exact absurd h9 (by omega)
  · -- increment the cell
    have hv1 : 1 ≤ s.sud s.row.toNat s.col.toNat + 1 := by omega
    have hv9 : s.sud s.row.toNat s.col.toNat + 1 ≤ 9 := by omega
    by_cases hcv : sud_cell_is_valid
        (updateG s.sud s.row.toNat s.col.toNat (s.sud s.row.toNat s.col.toNat + 1))
        s.row.toNat s.col.toNat = true
    · -- valid placement, step forward
      have hg1valid : sud_is_valid
          (updateG s.sud s.row.toNat s.col.toNat
            (s.sud s.row.toNat s.col.toNat + 1)) = true :=
        valid_updateG_place s.sud _ _ _ hrlt hclt hvalid0 hcv
      rw [solveStep_place_valid _ s hbig hcv,
        sud_step_forward_eq _ s.row s.col hr0 hr8 (by omega) hc8]
      rcases stepCellF_cases (sud_get_fixed sud0) (9 * s.row + s.col) (by omega) with
        ⟨hout, hall⟩ | ⟨t, ht80, htgt, htfree, heq, hbetween⟩
      · rw [hout]
        refine ⟨?_, ?_, ?_, ?_, ?_, ?_⟩ <;> dsimp only
        · exact fixedPres_update sud0 s.sud _ _ hmf hfix _
        · exact values_update s.sud hvals _ _ _ (by omega) hv9
        · left
          rfl
        · intro h
          exact absurd rfl h
        · intro h
          exact absurd rfl h
        · intro _ _
          refine ⟨hg1valid, ?_⟩
          intro a b ha hb hfree
          by_cases hab : a = s.row.toNat ∧ b = s.col.toNat
          · rw [hab.1, hab.2, updateG_self]
            omega
          · rw [updateG_ne _ _ _ _ hab]
            have hq80 : 9 * a + b ≤ 80 := by omega
            have e1 : (9 * a + b) / 9 = a := by omega
            have e2 : (9 * a + b) % 9 = b := by omega
            have hqf2 : sud_get_fixed sud0 ((9 * a + b) / 9) ((9 * a + b) % 9) = false := by
              rw [e1, e2]
              exact hfree
            by_cases hqlt : ((9 * a + b : Nat) : Int) < 9 * s.row + s.col
            · have hres := (hzones _ hq80 hqf2).2 hqlt
              rw [e1, e2] at hres
              exact hres
            · exfalso
              have hqne : ¬(9 * a + b = 9 * s.row.toNat + s.col.toNat) := by
                intro hh
                exact hab ⟨by omega, by omega⟩
              have hu := hall (9 * a + b) (by omega) hq80
              rw [hqf2] at hu
              cases hu
      · rw [heq]
        have hptq : 9 * ((t / 9 : Nat) : Int) + ((t % 9 : Nat) : Int) = (t : Int) := by omega
        refine ⟨?_, ?_, ?_, ?_, ?_, ?_⟩ <;> dsimp only
        · exact fixedPres_update sud0 s.sud _ _ hmf hfix _
        · exact values_update s.sud hvals _ _ _ (by omega) hv9
        · right
          dsimp only
          refine ⟨by omega, by omega, by omega, by omega, ?_⟩
          rw [toNat_cast, toNat_cast]
          exact htfree
        · intro _
          rw [hfound, Bool.false_or, beq_eq_false_iff_ne]
          omega
        · intro _
          constructor
          · intro q hq80 hqfree
            rw [hptq]
            constructor
            · intro hgt
              have hne : ¬(q / 9 = s.row.toNat ∧ q % 9 = s.col.toNat) := by
                intro hh
                omega
              rw [updateG_ne _ _ _ _ hne]
              exact (hzones q hq80 hqfree).1 (by omega)
            · intro hlt
              by_cases hqp : q = 9 * s.row.toNat + s.col.toNat
              · rw [hqp, hcell1, hcell2, updateG_self]
                omega
              · have hne : ¬(q / 9 = s.row.toNat ∧ q % 9 = s.col.toNat) := by
                  intro hh
                  exact hqp (by omega)
                rw [updateG_ne _ _ _ _ hne]
                by_cases hql : (q : Int) < 9 * s.row + s.col
                · exact (hzones q hq80 hqfree).2 hql
                · exfalso
                  have hu := hbetween q (by omega) (by omega)
                  rw [hqfree] at hu
                  cases hu
          · rw [toNat_cast, toNat_cast]
            exact valid_updateG_zero _ _ _ hg1valid
        · intro h9 _
          exact absurd h9 (by omega)
    · -- invalid placement, stay
      rw [solveStep_place_invalid _ s hbig hcv]
      refine ⟨?_, ?_, ?_, ?_, ?_, ?_⟩ <;> dsimp only
      · exact fixedPres_update sud0 s.sud _ _ hmf hfix _
      · exact values_update s.sud hvals _ _ _ (by omega) hv9
      · right
        dsimp only
        exact ⟨hr0, hr8, hc0, hc8, hmf⟩
      · intro _
        exact hfound
      · intro _
        constructor
        · intro q hq80 hqfree
          constructor
          · intro hgt
            have hne : ¬(q / 9 = s.row.toNat ∧ q % 9 = s.col.toNat) := by
              intro hh
              omega
            rw [updateG_ne _ _ _ _ hne]
            exact (hzones q hq80 hqfree).1 hgt
          · intro hlt
            have hne : ¬(q / 9 = s.row.toNat ∧ q % 9 = s.col.toNat) := by
              intro hh
              omega
            rw [updateG_ne _ _ _ _ hne]
            exact (hzones q hq80 hqfree).2 hlt
        · rw [updateG_updateG]
          exact hvalid0
      · intro h9 _
        exact absurd h9 hrow

theorem searchInv_loop (sud0 : Grid) (k : Nat) (s : SolveSt) (h : searchInv sud0 s) :
    searchInv sud0 (solveLoop (sud_get_fixed sud0) k s) := by
  induction k generalizing s with
  | zero => exact h
  | succ n ih =>
    by_cases h9 : s.row = 9
    · rw [solveLoop_terminal _ _ _ h9]
      exact h
    · rw [solveLoop_succ, if_neg h9]
      exact ih _ (searchInv_step sud0 s h h9)

/-- C1: for every 9x9 input grid with values in [0, 9] on which the
backtracking engine terminates in the solved state via the forward search
(valid input, `found` flag raised by the cursor stepping past the last cell),
the final grid is valid per `sud_is_valid`, solved per `sud_is_solved`, every
cell that was nonzero in the input holds its original input value, and
`sud_solve` reports it via the success path. -/
theorem sud_solve_found_correct (sud : Grid)
    (hvals : ∀ r : Nat, r < 9 → ∀ c : Nat, c < 9 → 0 ≤ sud r c ∧ sud r c ≤ 9)
    (hvalid : sud_is_valid sud = true)
    (hfound : (solveLoop (sud_get_fixed sud) sudFuel (solveInit sud)).found = true) :
    sud_is_valid (solveLoop (sud_get_fixed sud) sudFuel (solveInit sud)).sud = true ∧
    sud_is_solved (solveLoop (sud_get_fixed sud) sudFuel (solveInit sud)).sud = true ∧
    (∀ r c : Nat, r < 9 → c < 9 → sud r c ≠ 0 →
      (solveLoop (sud_get_fixed sud) sudFuel (solveInit sud)).sud r c = sud r c) ∧
    sud_solve sud =
      SolveOutcome.success (solveLoop (sud_get_fixed sud) sudFuel (solveInit sud)).sud := by
  obtain ⟨hfix, hvalsS, hcur, hnf, hloop, hterm⟩ :=
    searchInv_loop sud sudFuel _
      (searchInv_init sud (fun r c hr hc => hvals r hr c hc) hvalid)
  have hrow9 : (solveLoop (sud_get_fixed sud) sudFuel (solveInit sud)).row = 9 := by
    by_contra h
    rw [hnf h] at hfound
    cases hfound
  obtain ⟨hv, hranges⟩ := hterm hrow9 hfound
  have hsolved : sud_is_solved (solveLoop (sud_get_fixed sud) sudFuel (solveInit sud)).sud
      = true := by
    rw [sud_is_solved_iff]
    intro r hr c hc
    by_cases hf : sud_get_fixed sud r c = true
    · rw [hfix r c hr hc hf]
      have := (sud_get_fixed_iff sud r c).mp hf
      omega
    · have hff : sud_get_fixed sud r c = false := by
        cases hx : sud_get_fixed sud r c
        · rfl
        · exact absurd hx hf
      have := hranges r c hr hc hff
      omega
  refine ⟨hv, hsolved, ?_, ?_⟩
  · intro r c hr hc hnz
    apply hfix r c hr hc
    rw [sud_get_fixed_iff]
    have := hvals r hr c hc
    omega
  · simp only [sud_solve]
    rw [if_pos hfound, if_pos hv, if_pos hsolved]
    rfl

/-- Witness for C1 at a concrete one-blank puzzle. -/
theorem sud_solve_found_correct_witness :
    (∀ r : Nat, r < 9 → ∀ c : Nat, c < 9 → 0 ≤ gOneBlank r c ∧ gOneBlank r c ≤ 9) ∧
    sud_is_valid gOneBlank = true ∧
    (solveLoop (sud_get_fixed gOneBlank) sudFuel (solveInit gOneBlank)).found = true ∧
    (sud_is_valid (solveLoop (sud_get_fixed gOneBlank) sudFuel (solveInit gOneBlank)).sud
        = true ∧
      sud_is_solved (solveLoop (sud_get_fixed gOneBlank) sudFuel (solveInit gOneBlank)).sud
        = true ∧
      (∀ r c : Nat, r < 9 → c < 9 → gOneBlank r c ≠ 0 →
        (solveLoop (sud_get_fixed gOneBlank) sudFuel (solveInit gOneBlank)).sud r c
          = gOneBlank r c) ∧
      sud_solve gOneBlank =
        SolveOutcome.success
          (solveLoop (sud_get_fixed gOneBlank) sudFuel (solveInit gOneBlank)).sud) :=
  ⟨by decide, by decide, by rfl,
    sud_solve_found_correct gOneBlank (by decide) (by decide) (by rfl)⟩

/-! ### Outcome of `sud_solve`: original grid preserved, invalid givens -/

/-- C6: `sud_solve` never reports a modified grid on the failure path: when the
outcome is the could-not-find-a-solution diagnostic, the printed grid is the
caller's original input grid (all mutation happened on the private clone). -/
theorem sud_solve_preserves_input (sud g : Grid)
    (h : sud_solve sud = SolveOutcome.noSolution g) : g = sud := by
  simp only [sud_solve] at h
  by_cases hf : (solveLoop (sud_get_fixed sud) sudFuel (solveInit sud)).found = true
  · rw [if_pos hf] at h
    by_cases he : ((if sud_is_valid (solveLoop (sud_get_fixed sud) sudFuel (solveInit sud)).sud
          then [] else [errNotValid]) ++
        (if sud_is_solved (solveLoop (sud_get_fixed sud) sudFuel (solveInit sud)).sud
          then [] else [errNotSolved])).isEmpty = true
    · rw [if_pos he] at h
      cases h
    · rw [if_neg he] at h
      cases h
  · rw [if_neg hf] at h
    injection h with h
    exact h.symm

/-- Witness for C6 at a concrete unsolvable puzzle. -/
theorem sud_solve_preserves_input_witness :
    sud_solve gStuck = SolveOutcome.noSolution gStuck ∧ gStuck = gStuck :=
  ⟨by rfl, sud_solve_preserves_input gStuck gStuck (by rfl)⟩

/-- C2 (amended): for every input grid that is invalid per `sud_is_valid`, the
engine performs no search steps (the loop returns its initial state), but the
forced `row = 9` makes the `found` flag true, so `sud_solve` reports the grid
through the found/invalid-solution path — printing the unmodified grid with
the invalid-solution diagnostic whose reasons list `"not valid"` (plus
`"not solved"` when a blank remains) — not through the
could-not-find-a-solution path. -/
theorem sud_solve_invalid_grid (sud : Grid) (h : sud_is_valid sud = false) :
    solveLoop (sud_get_fixed sud) sudFuel (solveInit sud) = solveInit sud ∧
    (solveInit sud).found = true ∧
    sud_solve sud =
      SolveOutcome.invalidSolution
        (errNotValid :: (if sud_is_solved sud then [] else [errNotSolved])) sud := by
  have hcond : ¬ (sud_is_valid sud = true) := by
    rw [h]
    exact Bool.false_ne_true
  have hrow : (solveInit sud).row = 9 := by
    simp only [solveInit]
    rw [if_neg hcond]
  have hloop := solveLoop_terminal (sud_get_fixed sud) sudFuel _ hrow
  have hfound : (solveInit sud).found = true := by
    simp only [solveInit]
    rw [if_neg hcond]
    decide
  refine ⟨hloop, hfound, ?_⟩
  simp only [sud_solve]
  rw [hloop, if_pos hfound]
  dsimp only [solveInit]
  rw [h]
  rw [if_neg Bool.false_ne_true, List.singleton_append,
    if_neg (by simp : ¬ ((errNotValid :: (if sud_is_solved sud then [] else [errNotSolved])).isEmpty = true))]

/-- Witness for C2's amended statement at a concrete invalid grid. -/
theorem sud_solve_invalid_grid_witness :
    sud_is_valid gDup = false ∧
    (solveLoop (sud_get_fixed gDup) sudFuel (solveInit gDup) = solveInit gDup ∧
      (solveInit gDup).found = true ∧
      sud_solve gDup =
        SolveOutcome.invalidSolution
          (errNotValid :: (if sud_is_solved gDup then [] else [errNotSolved])) gDup) :=
  ⟨by decide, sud_solve_invalid_grid gDup (by decide)⟩

/-- Counterexample to C2 as stated: on the invalid grid `gDup` the outcome is
the invalid-solution diagnostic, not the could-not-find-a-solution path that
the claim predicts. -/
theorem sud_solve_invalid_grid_counterexample :
    sud_solve gDup = SolveOutcome.invalidSolution [errNotValid, errNotSolved] gDup ∧
    sud_solve gDup ≠ SolveOutcome.noSolution gDup := by
  have h1 : sud_solve gDup = SolveOutcome.invalidSolution [errNotValid, errNotSolved] gDup :=
    rfl
  exact ⟨h1, fun h => SolveOutcome.noConfusion (h1.symm.trans h)⟩

/-! ### Termination of the backtracking loop (claim C7) -/

theorem sudRep_nonneg (k : Nat) : 0 ≤ sudRep k :=
  Finset.sum_nonneg fun i _ => by positivity

theorem sudRep_succ (k : Nat) : sudRep (k + 1) = sudRep k + 12 ^ k :=
  Finset.sum_range_succ _ _

theorem sudRep_mono {j k : Nat} (h : j ≤ k) : sudRep j ≤ sudRep k := by
  rw [sudRep, sudRep]
  exact Finset.sum_le_sum_of_subset_of_nonneg (Finset.range_subset.mpr h)
    fun i _ _ => by positivity

theorem sudRep_ten_lt (k : Nat) : 10 * sudRep k < 12 ^ k := by
  induction k with
  | zero =>
    rw [sudRep]
    norm_num
  | succ n ih =>
    rw [sudRep_succ, pow_succ]
    have hp : (0 : Int) < 12 ^ n := by positivity
    linarith

theorem sudM_update (g : Grid) (r c : Nat) (hr : r < 9) (hc : c < 9) (v : Int) :
    sudM (updateG g r c v) = sudM g + (v - g r c) * 12 ^ (80 - (9 * r + c)) := by
  rw [sudM, sudM]
  have hsplit : ∀ q ∈ Finset.range 81,
      updateG g r c v (q / 9) (q % 9) * 12 ^ (80 - q) =
        g (q / 9) (q % 9) * 12 ^ (80 - q) +
          (if q = 9 * r + c then (v - g r c) * 12 ^ (80 - q) else 0) := by
    intro q hq
    by_cases hqp : q = 9 * r + c
    · rw [if_pos hqp, hqp]
      have e1 : (9 * r + c) / 9 = r := by omega
      have e2 : (9 * r + c) % 9 = c := by omega
      rw [e1, e2, updateG_self]
      ring
    · rw [if_neg hqp]
      have hq81 : q < 81 := Finset.mem_range.mp hq
      have hne : ¬(q / 9 = r ∧ q % 9 = c) := by
        intro hh
        exact hqp (by omega)
      rw [updateG_ne _ _ _ _ hne]
      ring
  rw [Finset.sum_congr rfl hsplit, Finset.sum_add_distrib]
  congr 1
  rw [Finset.sum_ite_eq' (Finset.range 81) (9 * r + c)
    (fun q => (v - g r c) * 12 ^ (80 - q))]
  rw [if_pos (Finset.mem_range.mpr (by omega))]

theorem sudM_nonneg (g : Grid) (hg : ∀ r c : Nat, r < 9 → c < 9 → 0 ≤ g r c) :
    0 ≤ sudM g := by
  apply Finset.sum_nonneg
  intro q hq
  have hq81 : q < 81 := Finset.mem_range.mp hq
  exact mul_nonneg (hg _ _ (by omega) (by omega)) (by positivity)

theorem sudM_le (g : Grid) (hg : ∀ r c : Nat, r < 9 → c < 9 → g r c ≤ 9) :
    sudM g ≤ 9 * sudRep 81 := by
  rw [sudM]
  have h1 : ∀ q ∈ Finset.range 81,
      g (q / 9) (q % 9) * 12 ^ (80 - q) ≤ 9 * 12 ^ (80 - q) := by
    intro q hq
    have hq81 : q < 81 := Finset.mem_range.mp hq
    exact mul_le_mul_of_nonneg_right (hg _ _ (by omega) (by omega)) (by positivity)
  have h2 : (∑ q in Finset.range 81, (12 : Int) ^ (80 - q)) = sudRep 81 := by
    rw [sudRep]
    exact Finset.sum_range_reflect (fun j => (12 : Int) ^ j) 81
  calc (∑ q in Finset.range 81, g (q / 9) (q % 9) * 12 ^ (80 - q))
      ≤ ∑ q in Finset.range 81, 9 * (12 : Int) ^ (80 - q) := Finset.sum_le_sum h1
    _ = 9 * ∑ q in Finset.range 81, (12 : Int) ^ (80 - q) := by rw [Finset.mul_sum]
    _ = 9 * sudRep 81 := by rw [h2]

theorem sudPot_nonneg (s : SolveSt) : 0 ≤ sudPot s := by
  rw [sudPot]
  split_ifs
  · exact le_refl 0
  · have := sudRep_nonneg (80 - (9 * s.row + s.col).toNat)
    linarith

theorem sudPot_le (s : SolveSt) : sudPot s ≤ 10 * sudRep 81 := by
  rw [sudPot]
  split_ifs
  · have := sudRep_nonneg 81
    linarith
  · have := sudRep_mono (show 80 - (9 * s.row + s.col).toNat ≤ 81 by omega)
    linarith

theorem sudPhi_nonneg (s : SolveSt) (hvals : valuesOK s) : 0 ≤ sudPhi s := by
  rw [sudPhi]
  have h1 := sudM_nonneg s.sud fun r c hr hc => (hvals r c hr hc).1
  have h2 := sudPot_nonneg s
  linarith

theorem sudPhi_le_max (s : SolveSt) (hvals : valuesOK s) : sudPhi s ≤ sudPhiMax := by
  rw [sudPhi, sudPhiMax]
  have h1 := sudM_le s.sud fun r c hr hc => (hvals r c hr hc).2
  have h2 := sudPot_le s
  linarith

theorem valuesOK_step (m : Mask) (s : SolveSt) (hcur : cursorOK m s)
    (hvals : valuesOK s) (hrow : s.row ≠ 9) : valuesOK (solveStep m s) := by
  rcases hcur with h9 | ⟨hr0, hr8, hc0, hc8, hmf⟩
  · exact absurd h9 hrow
  have hval := hvals s.row.toNat s.col.toNat (by omega) (by omega)
  by_cases hbig : s.sud s.row.toNat s.col.toNat + 1 > 9
  · rw [solveStep_reset m s hbig]
    exact values_update s.sud hvals _ _ 0 (by omega) (by omega)
  · by_cases hcv : sud_cell_is_valid
        (updateG s.sud s.row.toNat s.col.toNat (s.sud s.row.toNat s.col.toNat + 1))
        s.row.toNat s.col.toNat = true
    · rw [solveStep_place_valid m s hbig hcv]
      exact values_update s.sud hvals _ _ _ (by omega) (by omega)
    · rw [solveStep_place_invalid m s hbig hcv]
      exact values_update s.sud hvals _ _ _ (by omega) (by omega)

theorem sudPhi_step_lt (m : Mask) (s : SolveSt) (hcur : cursorOK m s)
    (hvals : valuesOK s) (hrow : s.row ≠ 9)
    (hrow' : (solveStep m s).row ≠ 9) :
    sudPhi s < sudPhi (solveStep m s) := by
  rcases hcur with h9 | ⟨hr0, hr8, hc0, hc8, hmf⟩
  · exact absurd h9 hrow
  have hrlt : s.row.toNat < 9 := by omega
  have hclt : s.col.toNat < 9 := by omega
  have hval := hvals s.row.toNat s.col.toNat hrlt hclt
  have hPp : (9 * s.row + s.col).toNat = 9 * s.row.toNat + s.col.toNat := by omega
  have hple : 9 * s.row.toNat + s.col.toNat ≤ 80 := by omega
  have hpotS : sudPot s = 10 * sudRep (80 - (9 * s.row.toNat + s.col.toNat)) := by
    rw [sudPot, if_neg hrow, hPp]
  have hWpos : (0 : Int) < 12 ^ (80 - (9 * s.row.toNat + s.col.toNat)) := by positivity
  by_cases hbig : s.sud s.row.toNat s.col.toNat + 1 > 9
  · have hv9 : s.sud s.row.toNat s.col.toNat = 9 := by omega
    rw [solveStep_reset _ s hbig,
      sud_step_backward_eq _ s.row s.col hr0 hr8 hc0 hc8] at hrow' ⊢
    rcases stepCellB_cases m (9 * s.row + s.col) (by omega) with
      ⟨hout, _⟩ | ⟨t, ht80, htlt, htfree, heq, _⟩
    · exfalso
      rw [hout] at hrow'
      exact hrow' rfl
    · rw [heq] at hrow' ⊢
      rw [sudPhi, sudPhi]
      dsimp only
      rw [sudM_update s.sud _ _ hrlt hclt 0, hv9, hpotS]
      have htP : t < 9 * s.row.toNat + s.col.toNat := by omega
      have hpotT : sudPot
          { sud := updateG s.sud s.row.toNat s.col.toNat 0,
            row := ((t / 9 : Nat) : Int), col := ((t % 9 : Nat) : Int),
            found := s.found } = 10 * sudRep (80 - t) := by
        rw [sudPot]
        rw [if_neg (by dsimp only; omega)]
        dsimp only
        have hT : (9 * ((t / 9 : Nat) : Int) + ((t % 9 : Nat) : Int)).toNat = t := by omega
        rw [hT]
      rw [hpotT]
      have hmono : sudRep (80 - (9 * s.row.toNat + s.col.toNat)) +
          12 ^ (80 - (9 * s.row.toNat + s.col.toNat)) ≤ sudRep (80 - t) := by
        have hex : (80 - (9 * s.row.toNat + s.col.toNat)) + 1 ≤ 80 - t := by omega
        calc sudRep (80 - (9 * s.row.toNat + s.col.toNat)) +
            12 ^ (80 - (9 * s.row.toNat + s.col.toNat))
            = sudRep ((80 - (9 * s.row.toNat + s.col.toNat)) + 1) := (sudRep_succ _).symm
          _ ≤ sudRep (80 - t) := sudRep_mono hex
      linarith
  · by_cases hcv : sud_cell_is_valid
        (updateG s.sud s.row.toNat s.col.toNat (s.sud s.row.toNat s.col.toNat + 1))
        s.row.toNat s.col.toNat = true
    · rw [solveStep_place_valid _ s hbig hcv,
        sud_step_forward_eq _ s.row s.col hr0 hr8 (by omega) hc8] at hrow' ⊢
      rcases stepCellF_cases m (9 * s.row + s.col) (by omega) with
        ⟨hout, _⟩ | ⟨t, ht80, htgt, htfree, heq, _⟩
      · exfalso
        rw [hout] at hrow'
        exact hrow' rfl
      · rw [heq] at hrow' ⊢
        rw [sudPhi, sudPhi]
        dsimp only
        rw [sudM_update s.sud _ _ hrlt hclt _, hpotS]
        have hpotT : sudPot
            { sud := updateG s.sud s.row.toNat s.col.toNat
                (s.sud s.row.toNat s.col.toNat + 1),
              row := ((t / 9 : Nat) : Int), col := ((t % 9 : Nat) : Int),
              found := s.found || (((t / 9 : Nat) : Int) == 9) } =
            10 * sudRep (80 - t) := by
          rw [sudPot]
          rw [if_neg (by dsimp only; omega)]
          dsimp only
          have hT : (9 * ((t / 9 : Nat) : Int) + ((t % 9 : Nat) : Int)).toNat = t := by omega
          rw [hT]
        rw [hpotT]
        have hdelta : s.sud s.row.toNat s.col.toNat + 1 - s.sud s.row.toNat s.col.toNat
            = (1 : Int) := by ring
        rw [hdelta, one_mul]
        have hkey := sudRep_ten_lt (80 - (9 * s.row.toNat + s.col.toNat))
        have hpos := sudRep_nonneg (80 - t)
        linarith
    · rw [solveStep_place_invalid _ s hbig hcv] at hrow' ⊢
      rw [sudPhi, sudPhi]
      dsimp only
      rw [sudM_update s.sud _ _ hrlt hclt _]
      have hpotT : sudPot
          { sud := updateG s.sud s.row.toNat s.col.toNat
              (s.sud s.row.toNat s.col.toNat + 1),
            row := s.row, col := s.col, found := s.found } = sudPot s := rfl
      rw [hpotT]
      have hdelta : s.sud s.row.toNat s.col.toNat + 1 - s.sud s.row.toNat s.col.toNat
          = (1 : Int) := by ring
      rw [hdelta, one_mul]
      linarith

theorem solveLoop_reaches_terminal (m : Mask) :
    ∀ (k : Nat) (s : SolveSt), cursorOK m s → valuesOK s →
      (sudPhiMax + 1 - sudPhi s).toNat ≤ k → (solveLoop m k s).row = 9 := by
  intro k
  induction k with
  | zero =>
    intro s hcur hvals hle
    exfalso
    have h1 := sudPhi_le_max s hvals
    omega
  | succ n ih =>
    intro s hcur hvals hle
    by_cases h9 : s.row = 9
    · rw [solveLoop_terminal _ _ _ h9]
      exact h9
    · rw [solveLoop_succ, if_neg h9]
      by_cases h9' : (solveStep m s).row = 9
      · rw [solveLoop_terminal _ _ _ h9']
        exact h9'
      · have hlt := sudPhi_step_lt m s hcur hvals h9 h9'
        have hmax := sudPhi_le_max (solveStep m s) (valuesOK_step m s hcur hvals h9)
        exact ih (solveStep m s) (cursorOK_step m s hcur h9)
          (valuesOK_step m s hcur hvals h9) (by omega)

/-- C7: for every 9x9 input grid with values in [0, 9], the backtracking
search loop of `sud_solve` terminates: within the fuel `sudFuel` it reaches a
terminal state (`row = 9`, i.e. solved or exhausted); there is no input on
which it loops forever. -/
theorem sud_solve_loop_terminates (sud : Grid)
    (hvals : ∀ r : Nat, r < 9 → ∀ c : Nat, c < 9 → 0 ≤ sud r c ∧ sud r c ≤ 9) :
    (solveLoop (sud_get_fixed sud) sudFuel (solveInit sud)).row = 9 := by
  have hvals' : valuesOK (solveInit sud) := fun r c hr hc => hvals r hr c hc
  apply solveLoop_reaches_terminal (sud_get_fixed sud) sudFuel (solveInit sud)
    (cursorOK_init sud) hvals'
  have h0 := sudPhi_nonneg (solveInit sud) hvals'
  have h1 : sudPhiMax + 1 ≤ ((sudFuel : Nat) : Int) := by
    rw [sudPhiMax, sudFuel]
    have h2 := sudRep_ten_lt 81
    have h3 := sudRep_nonneg 81
    have h4 : ((12 : Int)) ^ 83 ≤ 12 ^ 90 :=
      pow_le_pow_right (by norm_num) (by norm_num)
    have h5 : ((12 : Int)) ^ 83 = 12 ^ 81 * 144 := by
      rw [show (83 : Nat) = 81 + 2 by norm_num, pow_add]
      norm_num
    push_cast
    nlinarith
  omega

/-- Witness for C7 at the all-blank grid. -/
theorem sud_solve_loop_terminates_witness :
    (∀ r : Nat, r < 9 → ∀ c : Nat, c < 9 → 0 ≤ zeroGrid r c ∧ zeroGrid r c ≤ 9) ∧
    (solveLoop (sud_get_fixed zeroGrid) sudFuel (solveInit zeroGrid)).row = 9 :=
  ⟨by decide, sud_solve_loop_terminates zeroGrid (by decide)⟩

/-! ### Cell validity versus the spec's nonzero-duplicate reading (claim C8) -/

/-- C8 (amended): `sud_cell_is_valid` returns false iff some other cell in the
same row, column or 3x3 box holds the same literal value as `grid[row][col]` —
including the value 0, so two blank cells in one unit already make each other
invalid. -/
theorem cell_valid_false_iff (g : Grid) (r c : Nat) (hr : r < 9) (hc : c < 9) :
    sud_cell_is_valid g r c = false ↔
      ∃ r' c' : Nat, r' < 9 ∧ c' < 9 ∧ ¬(r' = r ∧ c' = c) ∧ sameUnit r c r' c' ∧
        g r' c' = g r c := by
  rw [← Bool.not_eq_true, cell_valid_iff g r c hr hc]
  push_neg
  rfl

/-- Witness for C8's amended statement at the grid with duplicate givens. -/
theorem cell_valid_false_iff_witness :
    (0 : Nat) < 9 ∧ (0 : Nat) < 9 ∧
    (sud_cell_is_valid gDup 0 0 = false ↔
      ∃ r' c' : Nat, r' < 9 ∧ c' < 9 ∧ ¬(r' = 0 ∧ c' = 0) ∧ sameUnit 0 0 r' c' ∧
        gDup r' c' = gDup 0 0) :=
  ⟨by decide, by decide, cell_valid_false_iff gDup 0 0 (by decide) (by decide)⟩

/-- Counterexample to C8 as stated: on the all-blank grid the cell `(0, 0)` is
reported invalid (`sud_cell_is_valid = false`) although no other cell holds
the same nonzero value — the claimed iff fails at cells holding 0. -/
theorem cell_valid_nonzero_counterexample :
    sud_cell_is_valid zeroGrid 0 0 = false ∧
    ¬(∃ r' c' : Nat, r' < 9 ∧ c' < 9 ∧ ¬(r' = 0 ∧ c' = 0) ∧ sameUnit 0 0 r' c' ∧
        zeroGrid r' c' = zeroGrid 0 0 ∧ zeroGrid 0 0 ≠ 0) := by
  constructor
  · decide
  · rintro ⟨r', c', _, _, _, _, _, hnz⟩
    exact hnz rfl

/-! ### Reading puzzle files (claims C3, C9, C10) -/

theorem sud_read_go_bad (path : String) (l : List Char) (rest : List (List Char))
    (hbad : lineSkipped (normLine l) = false) (hlen : (normLine l).length ≠ 9) :
    ∀ (pre : List (List Char)) (g : Grid) (ln row : Nat),
      (∀ l' ∈ pre, lineSkipped (normLine l') = true ∨ (normLine l').length = 9) →
      row + (pre.filter fun l' => !(lineSkipped (normLine l'))).length ≤ 9 →
      sud_read_go path g ln row (pre ++ l :: rest) =
        Except.error (ReadError.badLine (ln + pre.length + 1) path l) := by
  intro pre
  induction pre with
  | nil =>
    intro g ln row _ _
    simp only [List.nil_append, sud_read_go]
    rw [if_neg (by rw [hbad]; exact Bool.false_ne_true), if_pos hlen]
    rfl
  | cons l' pre' ih =>
    intro g ln row hwf hcount
    have hwf' : ∀ x ∈ pre', lineSkipped (normLine x) = true ∨ (normLine x).length = 9 :=
      fun x hx => hwf x (List.mem_cons_of_mem l' hx)
    simp only [List.cons_append, sud_read_go, List.append_eq]
    by_cases hsk : lineSkipped (normLine l') = true
    · have hcnt : (List.filter (fun x => !(lineSkipped (normLine x))) (l' :: pre')).length =
          (List.filter (fun x => !(lineSkipped (normLine x))) pre').length := by
        simp [List.filter_cons, hsk]
      rw [if_pos hsk]
      rw [ih g (ln + 1) row hwf' (by omega)]
      simp only [List.length_cons]
      have harith : ln + 1 + pre'.length + 1 = ln + (pre'.length + 1) + 1 := by omega
      rw [harith]
    · have hsk' : lineSkipped (normLine l') = false := by
        cases hx : lineSkipped (normLine l')
        · rfl
        · exact absurd hx hsk
      have hlen9 : (normLine l').length = 9 := by
        rcases hwf l' (List.mem_cons_self l' pre') with h | h
        · exact absurd h hsk
        · exact h
      have hcnt : (List.filter (fun x => !(lineSkipped (normLine x))) (l' :: pre')).length =
          (List.filter (fun x => !(lineSkipped (normLine x))) pre').length + 1 := by
        simp [List.filter_cons, hsk']
      rw [if_neg hsk, if_neg (by rw [hlen9]; exact fun h => h rfl),
        if_neg (by omega : ¬ row ≥ 9)]
      rw [ih _ (ln + 1) (row + 1) hwf' (by omega)]
      simp only [List.length_cons]
      have harith : ln + 1 + pre'.length + 1 = ln + (pre'.length + 1) + 1 := by omega
      rw [harith]

/-- C9 (amended): if the k-th physical line of a file (1-based, counting
blank and comment lines) is the *first* that normalizes to a non-empty,
non-comment string whose length is not 9 — all earlier lines being skipped or
well-formed, at most nine of them well-formed — then `sud_read` fails with
the bad-line error naming that line number k, the file path and the original
line content.  (Without these provisos the error can name an earlier line, or
be the row-overflow panic; see the counterexample.) -/
theorem sud_read_bad_line_error (path : String) (pre : List (List Char)) (l : List Char)
    (rest : List (List Char))
    (hwf : ∀ l' ∈ pre, lineSkipped (normLine l') = true ∨ (normLine l').length = 9)
    (hcount : (pre.filter fun l' => !(lineSkipped (normLine l'))).length ≤ 9)
    (hbad : lineSkipped (normLine l) = false) (hlen : (normLine l).length ≠ 9) :
    sud_read path (pre ++ l :: rest) =
      Except.error (ReadError.badLine (pre.length + 1) path l) := by
  rw [sud_read, sud_read_go_bad path l rest hbad hlen pre _ 0 0 hwf (by omega)]
  have harith : 0 + pre.length + 1 = pre.length + 1 := by omega
  rw [harith]

/-- Witness for C9: a comment line, a blank line, then an 8-character line;
the error names physical line 3. -/
theorem sud_read_bad_line_error_witness :
    (∀ l' ∈ [lineHash, ([] : List Char)],
      lineSkipped (normLine l') = true ∨ (normLine l').length = 9) ∧
    ([lineHash, ([] : List Char)].filter
      fun l' => !(lineSkipped (normLine l'))).length ≤ 9 ∧
    lineSkipped (normLine lineBad8) = false ∧ (normLine lineBad8).length ≠ 9 ∧
    sud_read pathX ([lineHash, ([] : List Char)] ++ lineBad8 :: []) =
      Except.error (ReadError.badLine ([lineHash, ([] : List Char)].length + 1)
        pathX lineBad8) :=
  ⟨by decide, by decide, by decide, by decide,
    sud_read_bad_line_error pathX [lineHash, ([] : List Char)] lineBad8 []
      (by decide) (by decide) (by decide) (by decide)⟩

theorem sud_read_go_ok (path : String) :
    ∀ (ls : List (List Char)) (g : Grid) (ln row : Nat),
      (∀ l ∈ ls, lineSkipped (normLine l) = true ∨ (normLine l).length = 9) →
      row + (ls.filter fun l => !(lineSkipped (normLine l))).length ≤ 9 →
      ∃ g', sud_read_go path g ln row ls = Except.ok g' ∧
        ∀ r c : Nat, row + (ls.filter fun l => !(lineSkipped (normLine l))).length ≤ r →
          g' r c = g r c := by
  intro ls
  induction ls with
  | nil =>
    intro g ln row _ _
    exact ⟨g, rfl, fun r c _ => rfl⟩
  | cons l ls' ih =>
    intro g ln row hwf hcount
    have hwf' : ∀ x ∈ ls', lineSkipped (normLine x) = true ∨ (normLine x).length = 9 :=
      fun x hx => hwf x (List.mem_cons_of_mem l hx)
    simp only [sud_read_go]
    by_cases hsk : lineSkipped (normLine l) = true
    · have hcnt : (List.filter (fun x => !(lineSkipped (normLine x))) (l :: ls')).length =
          (List.filter (fun x => !(lineSkipped (normLine x))) ls').length := by
        simp [List.filter_cons, hsk]
      rw [if_pos hsk]
      obtain ⟨g', hok, huntouched⟩ := ih g (ln + 1) row hwf' (by omega)
      exact ⟨g', hok, fun r c hr => huntouched r c (by omega)⟩
    · have hsk' : lineSkipped (normLine l) = false := by
        cases hx : lineSkipped (normLine l)
        · rfl
        · exact absurd hx hsk
      have hlen9 : (normLine l).length = 9 := by
        rcases hwf l (List.mem_cons_self l ls') with h | h
        · exact absurd h hsk
        · exact h
      have hcnt : (List.filter (fun x => !(lineSkipped (normLine x))) (l :: ls')).length =
          (List.filter (fun x => !(lineSkipped (normLine x))) ls').length + 1 := by
        simp [List.filter_cons, hsk']
      rw [if_neg hsk, if_neg (by rw [hlen9]; exact fun h => h rfl),
        if_neg (by omega : ¬ row ≥ 9)]
      obtain ⟨g', hok, huntouched⟩ := ih
        (fillRow g row ((normLine l).map fun c => if c = '.' then '0' else c))
        (ln + 1) (row + 1) hwf' (by omega)
      refine ⟨g', hok, ?_⟩
      intro r c hr
      rw [huntouched r c (by omega)]
      rw [fillRow]
      rw [if_neg (by
        rintro ⟨hre, _⟩
        omega)]

/-- C10 (amended): for every file whose surviving (non-blank, non-comment)
lines all normalize to exactly 9 characters and number fewer than 9,
`sud_read` returns successfully, and every row not populated from the file
consists entirely of 0 cells.  (The unamended claim fails when a surviving
line is malformed: loading then aborts, see the counterexample.) -/
theorem sud_read_short_file_ok (path : String) (lines : List (List Char))
    (hwf : ∀ l ∈ lines, lineSkipped (normLine l) = true ∨ (normLine l).length = 9)
    (hcount : (lines.filter fun l => !(lineSkipped (normLine l))).length < 9) :
    readOk (sud_read path lines) = true ∧
    ∀ r c : Nat, (lines.filter fun l => !(lineSkipped (normLine l))).length ≤ r →
      okGrid (sud_read path lines) r c = 0 := by
  obtain ⟨g', hok, huntouched⟩ :=
    sud_read_go_ok path lines (fun _ _ => 0) 0 0 hwf (by omega)
  rw [sud_read, hok]
  constructor
  · rfl
  · intro r c hr
    show g' r c = 0
    rw [huntouched r c (by omega)]

/-- Witness for C10's amended statement: a two-line file loads successfully
and rows 2..8 stay blank. -/
theorem sud_read_short_file_ok_witness :
    (∀ l ∈ [lineDigits, lineDigits],
      lineSkipped (normLine l) = true ∨ (normLine l).length = 9) ∧
    ([lineDigits, lineDigits].filter
      fun l => !(lineSkipped (normLine l))).length < 9 ∧
    (readOk (sud_read pathX [lineDigits, lineDigits]) = true ∧
      ∀ r c : Nat,
        ([lineDigits, lineDigits].filter
          fun l => !(lineSkipped (normLine l))).length ≤ r →
        okGrid (sud_read pathX [lineDigits, lineDigits]) r c = 0) :=
  ⟨by decide, by decide, sud_read_short_file_ok pathX [lineDigits, lineDigits]
    (by decide) (by decide)⟩

/-- Counterexample to C10 as stated: a readable file with a single puzzle line
(fewer than 9 lines surviving blank/comment skipping) on which `sud_read`
does *not* return successfully — the 8-character line is a fatal error. -/
theorem sud_read_short_file_counterexample :
    lineSkipped (normLine lineBad8) = false ∧
    ([lineBad8].filter fun l => !(lineSkipped (normLine l))).length < 9 ∧
    readOk (sud_read pathX [lineBad8]) = false := by
  refine ⟨by decide, by decide, by decide⟩

/-- C3 (amended): `sud_read` performs no character-content validation: any
line that normalizes to 9 characters and is not a comment is accepted,
whatever its characters, and each character `c` is stored as the value
`c as i8 - '0' as i8` (after the `.` → `0` substitution). -/
theorem sud_read_no_char_validation (path : String) (l : List Char)
    (hskip : lineSkipped (normLine l) = false)
    (hlen : (normLine l).length = 9) :
    readOk (sud_read path [l]) = true ∧
    ∀ c : Nat, c < 9 →
      okGrid (sud_read path [l]) 0 c =
        charVal (((normLine l).map fun ch => if ch = '.' then '0' else ch).getD c '0') := by
  rw [sud_read]
  simp only [sud_read_go]
  rw [if_neg (by rw [hskip]; exact Bool.false_ne_true),
    if_neg (by rw [hlen]; exact fun h => h rfl),
    if_neg (by omega : ¬ (0 : Nat) ≥ 9)]
  constructor
  · rfl
  · intro c hc
    show fillRow (fun _ _ => 0) 0 ((normLine l).map fun ch => if ch = '.' then '0' else ch)
        0 c = _
    rw [fillRow, if_pos ⟨rfl, by rw [List.length_map, hlen]; omega⟩]

/-- Witness for C3's amended statement at a line of non-digit characters. -/
theorem sud_read_no_char_validation_witness :
    lineSkipped (normLine lineAllA) = false ∧ (normLine lineAllA).length = 9 ∧
    (readOk (sud_read pathX [lineAllA]) = true ∧
      ∀ c : Nat, c < 9 →
        okGrid (sud_read pathX [lineAllA]) 0 c =
          charVal (((normLine lineAllA).map
            fun ch => if ch = '.' then '0' else ch).getD c '0')) :=
  ⟨by decide, by decide,
    sud_read_no_char_validation pathX lineAllA (by decide) (by decide)⟩

/-- Counterexample to C3 as stated: a 9-character line containing `'a'` — not
a digit and not `'.'` — is loaded without any fatal error: `sud_read` returns
a grid populated from it. -/
theorem sud_read_nondigit_counterexample :
    'a' ∈ normLine lineAllA ∧ ('a').isDigit = false ∧ ('a' = '.') = False ∧
    (normLine lineAllA).length = 9 ∧
    readOk (sud_read pathX [lineAllA]) = true ∧
    okGrid (sud_read pathX [lineAllA]) 0 0 = 49 := by
  refine ⟨by decide, by decide, by simp, by decide, by decide, by decide⟩

/-- Witness for C4 at a concrete mask and starting cell. -/
theorem sud_step_first_nonfixed_spec_witness :
    (0 : Nat) < 9 ∧ (0 : Nat) < 9 ∧
    (((sud_step (sud_get_fixed gStuck) ((0 : Nat) : Int) ((0 : Nat) : Int) 1 = (9, 9) ↔
        ∀ u : Nat, 9 * 0 + 0 < u → u ≤ 80 →
          sud_get_fixed gStuck (u / 9) (u % 9) = true) ∧
      (∀ t : Nat, t ≤ 80 → 9 * 0 + 0 < t →
        sud_get_fixed gStuck (t / 9) (t % 9) = false →
        (∀ u : Nat, 9 * 0 + 0 < u → u < t →
          sud_get_fixed gStuck (u / 9) (u % 9) = true) →
        sud_step (sud_get_fixed gStuck) ((0 : Nat) : Int) ((0 : Nat) : Int) 1 =
          (((t / 9 : Nat) : Int), ((t % 9 : Nat) : Int)))) ∧
     ((sud_step (sud_get_fixed gStuck) ((0 : Nat) : Int) ((0 : Nat) : Int) (-1) = (9, 9) ↔
        ∀ u : Nat, u < 9 * 0 + 0 →
          sud_get_fixed gStuck (u / 9) (u % 9) = true) ∧
      (∀ t : Nat, t < 9 * 0 + 0 →
        sud_get_fixed gStuck (t / 9) (t % 9) = false →
        (∀ u : Nat, t < u → u < 9 * 0 + 0 →
          sud_get_fixed gStuck (u / 9) (u % 9) = true) →
        sud_step (sud_get_fixed gStuck) ((0 : Nat) : Int) ((0 : Nat) : Int) (-1) =
          (((t / 9 : Nat) : Int), ((t % 9 : Nat) : Int))))) :=
  ⟨by decide, by decide,
    sud_step_first_nonfixed_spec (sud_get_fixed gStuck) 0 0 (by decide) (by decide)⟩

/-- Counterexample to C9 as stated: the claim quantifies over *every* file
whose k-th line is malformed.  Two in-scope files refute it: with malformed
lines at positions 1 and 2, the error names line 1, not line 2 (the claim
instance at k = 2 fails); with ten well-formed puzzle lines before a
malformed eleventh, the read dies with the row-overflow (index out of bounds)
panic at line 10, naming neither k = 11 nor the offending content. -/
theorem sud_read_bad_line_counterexample :
    lineSkipped (normLine lineBad7) = false ∧ (normLine lineBad7).length ≠ 9 ∧
    sud_read pathX [lineBad8, lineBad7] =
      Except.error (ReadError.badLine 1 pathX lineBad8) ∧
    sud_read pathX [lineBad8, lineBad7] ≠
      Except.error (ReadError.badLine 2 pathX lineBad7) ∧
    lineSkipped (normLine lineBad8) = false ∧ (normLine lineBad8).length ≠ 9 ∧
    sud_read pathX linesOverflow = Except.error (ReadError.rowOverflow 10) ∧
    sud_read pathX linesOverflow ≠
      Except.error (ReadError.badLine 11 pathX lineBad8) := by
  have h1 : sud_read pathX [lineBad8, lineBad7] =
      Except.error (ReadError.badLine 1 pathX lineBad8) := rfl
  have h2 : sud_read pathX linesOverflow = Except.error (ReadError.rowOverflow 10) := rfl
  refine ⟨by decide, by decide, h1, ?_, by decide, by decide, h2, ?_⟩
  · intro h
    rw [h1] at h
    injection h with h'
    injection h' with ha hb hc
    exact absurd ha (by decide)
  · intro h
    rw [h2] at h
    injection h with h'
    cases h'
